import Mathlib

/-!
Verification development for the Grooopy tab-clustering engine
(src/clustering.js, class ClusteringEngine).

Shallow embedding conventions:
* JS 64-bit floats are idealized as real numbers (`ℝ`).
* JS strings are modelled as `List Char` (called `Str` below), so that all
  string operations compute.
* The embedding model (transformers.js `pipeline`) and the cluster-naming
  routine `generateClusterName` (which calls the model) are external
  collaborators; they are passed in as oracle parameters.  Likewise the
  platform URL parser `new URL(...)` is an oracle
  `String → Option (hostname × pathname)`.
* Tab enrichment (`extractAndEnrichTabs`) and embedding generation
  (`generateEmbeddings`) are 1:1 loops over the input tabs, so `clusterTabs`
  is modelled directly on the list of enriched, embedded items
  (`TabVector`), preserving the input length and order.
* JS `Set` objects (insertion-ordered, deduplicated) are modelled as
  deduplicated lists.
-/

namespace Grooopy

noncomputable section

/-- JS strings, modelled as character lists so that everything computes. -/
abbrev Str := List Char

/-- Embedding vectors (all-MiniLM-L6-v2 output), idealized as real lists. -/
abbrev Vec := List ℝ

/-! ## Configuration constants (this.config in the constructor) -/

def CONTENT_SIMILARITY_THRESHOLD : ℝ := 0.38
def DOMAIN_AFFINITY_BOOST : ℝ := 0.15
def URL_PATH_BOOST : ℝ := 0.08
def SINGLETON_ABSORPTION_THRESHOLD : ℝ := 0.25
def SINGLETON_CLUSTER_THRESHOLD : ℝ := 0.33
def MIN_ORPHANS_FOR_MISC : ℕ := 3
def PIXELS_PER_GROUP : ℕ := 130
def MIN_GROUPS : ℕ := 2
def MAX_GROUPS : ℕ := 10

/-! ## Data model -/

/-- One enriched, embedded input item (an element of `tabVectors`): the
Chrome tab's id together with the featurizer output and the embedding.
The raw `tab` object and the `content` blob only feed the external
collaborators and are not carried further. -/
structure TabVector where
  tabId : ℕ
  domain : Str
  baseDomain : Str
  pathTokens : List Str
  embedding : Vec

instance : Inhabited TabVector := ⟨⟨0, [], [], [], []⟩⟩

/-- A cluster as built by the engine: member indices into the input list,
the member items, their embeddings, the set of member domains (JS `Set`,
modelled as a deduplicated list) and the cached centroid.  `isMisc` tags
the terminal catch-all cluster. -/
structure Cluster where
  indices : List ℕ
  items : List TabVector
  embeddings : List Vec
  domains : List Str
  centroid : Vec
  isMisc : Bool

instance : Inhabited Cluster := ⟨⟨[], [], [], [], [], false⟩⟩

/-- One entry of the final output (`ClusterResult`). -/
structure ClusterResult where
  name : Str
  color : Str
  tabIds : List ℕ

instance : Inhabited ClusterResult := ⟨⟨[], [], []⟩⟩

/-! ## URL/Text featurizer (parseUrl) -/

/-- Featurizer output: `{domain, baseDomain, pathTokens}`. -/
structure UrlParts where
  domain : Str
  baseDomain : Str
  pathTokens : List Str
deriving DecidableEq

/-- The character class of the JS path split regex `/[\/\-_]/`. -/
def isPathSep (c : Char) : Bool := c == '/' || c == '-' || c == '_'

/-- Split a string on every character satisfying `p`, keeping empty pieces,
exactly like JS `String.prototype.split` with a single-character-class
regex (`"".split` gives `[""]`, separators at the ends give empty pieces). -/
def splitChars (p : Char → Bool) : Str → List Str
  | [] => [[]]
  | c :: rest =>
    let r := splitChars p rest
    if p c then [] :: r
    else
      match r with
      | [] => [[c]]
      | t :: ts => (c :: t) :: ts

/-- Embeds `parseUrl(urlString)`.  The platform URL parser (`new URL`) is
the oracle `parse`, returning `some (hostname, pathname)` on success and
`none` when parsing throws (the JS `catch` branch). -/
def parseUrl (parse : Str → Option (Str × Str)) (urlString : Str) : UrlParts :=
  match parse urlString with
  | none => ⟨[], [], []⟩
  | some (rawHost, pathname) =>
    let hostname := if ("www.".toList).isPrefixOf rawHost then rawHost.drop 4 else rawHost
    let parts := splitChars (fun c => c == '.') hostname
    { domain := hostname
      baseDomain :=
        if 2 ≤ parts.length then List.intercalate ['.'] (parts.drop (parts.length - 2))
        else hostname
      pathTokens := ((splitChars isPathSep pathname).filter (fun t => 2 < t.length)).take 5 }

/-! ## Similarity computation -/

/-- Embeds `cosineSimilarity(v1, v2)`: the running-sum loop
`dot += v1[i] * v2[i]` (embeddings all share the model dimension). -/
def cosineSimilarity (v1 v2 : Vec) : ℝ :=
  (List.zipWith (fun a b => a * b) v1 v2).sum

/-- Embeds `computePairwiseSimilarity(tab1, tab2)`: semantic similarity
plus domain-affinity boost plus URL-path boost. -/
def computePairwiseSimilarity (tab1 tab2 : TabVector) : ℝ :=
  let semanticSim := cosineSimilarity tab1.embedding tab2.embedding
  let domainBoost : ℝ :=
    if tab1.domain = tab2.domain then DOMAIN_AFFINITY_BOOST
    else if tab1.baseDomain = tab2.baseDomain then DOMAIN_AFFINITY_BOOST * 0.5
    else 0
  let commonTokens := tab1.pathTokens.filter (fun t => tab2.pathTokens.contains t)
  let pathBoost : ℝ :=
    if 0 < commonTokens.length then
      URL_PATH_BOOST *
        min 1 ((commonTokens.length : ℝ) /
          max (tab1.pathTokens.length : ℝ) (max (tab2.pathTokens.length : ℝ) 1))
    else 0
  semanticSim + domainBoost + pathBoost

/-- Embeds `buildSimilarityMatrix(tabVectors)` as the lookup function of the
built matrix: each unordered pair `i < j` is scored once and mirrored, the
diagonal stays 0. -/
def buildSimilarityMatrix (tvs : List TabVector) : ℕ → ℕ → ℝ := fun i j =>
  if i < j then computePairwiseSimilarity (tvs.getD i default) (tvs.getD j default)
  else if j < i then computePairwiseSimilarity (tvs.getD j default) (tvs.getD i default)
  else 0

/-! ## Centroids -/

/-- Componentwise sum of a list of vectors into a zero vector of the first
vector's dimension (the `Float32Array(dim)` accumulation loop). -/
def sumVecs (l : List Vec) : Vec :=
  l.foldl (fun acc e => List.zipWith (fun a b => a + b) acc e)
    (List.replicate (l.headD []).length 0)

/-- Embeds `computeCentroid(embeddings)`: null on empty input (never used),
the unique member itself for a single embedding, otherwise the sum of the
embeddings divided by its magnitude when that is positive. -/
def computeCentroid (embeddings : List Vec) : Vec :=
  match embeddings with
  | [] => []
  | [e] => e
  | _ =>
    let s := sumVecs embeddings
    let mag := Real.sqrt ((s.map (fun x => x * x)).sum)
    if 0 < mag then s.map (fun x => x / mag) else s

/-! ## Agglomerative hierarchical clustering -/

/-- The initial state of `agglomerativeClustering`: one singleton cluster per
item, in input order (`tabVectors.map((tv, idx) => ...)`). -/
def initialClusters (tvs : List TabVector) : List Cluster :=
  tvs.enum.map (fun p =>
    { indices := [p.1]
      items := [p.2]
      embeddings := [p.2.embedding]
      domains := [p.2.domain]
      centroid := p.2.embedding
      isMisc := false })

/-- Embeds `computeAdaptiveThreshold(tabCount, targetGroups)`. -/
def computeAdaptiveThreshold (tabCount targetGroups : ℕ) : ℝ :=
  CONTENT_SIMILARITY_THRESHOLD * max 0.85 (1 - ((tabCount : ℝ) - 10) * 0.01)

/-- Embeds `calculateGroupCapacity(screenWidth, tabCount)` (all JS numbers
here are non-negative integers; `Math.ceil(tabCount / 2)` is
`(tabCount + 1) / 2` in natural division). -/
def calculateGroupCapacity (screenWidth tabCount : ℕ) : ℕ :=
  let estimated := screenWidth / PIXELS_PER_GROUP
  let clamped := max MIN_GROUPS (min MAX_GROUPS estimated)
  let maxForTabs := max 2 ((tabCount + 1) / 2)
  min clamped maxForTabs

/-- Average linkage between two clusters: the mean of the original matrix
entries over the Cartesian product of their member indices (`count > 0 ?
totalSim / count : 0`). -/
def avgLinkage (m : ℕ → ℕ → ℝ) (c1 c2 : Cluster) : ℝ :=
  let total := (c1.indices.map (fun a => (c2.indices.map (fun b => m a b)).sum)).sum
  let count := c1.indices.length * c2.indices.length
  if count = 0 then 0 else total / (count : ℝ)

/-- The `(i, j)` scan order of the double loop in `findBestMerge`:
all pairs `i < j < n` in lexicographic order. -/
def pairsUpTo (n : ℕ) : List (ℕ × ℕ) :=
  (List.range n).flatMap (fun i =>
    ((List.range n).filter (fun j => i < j)).map (fun j => (i, j)))

/-- The running-best fold of `findBestMerge`.  JS starts from
`bestSim = -Infinity`, so the first pair always becomes the best; `none`
models the not-yet-assigned state and a strict `avgSim > bestSim` updates. -/
def fbmAux (cs : List Cluster) (m : ℕ → ℕ → ℝ) :
    List (ℕ × ℕ) → Option (ℕ × ℕ × ℝ) → Option (ℕ × ℕ × ℝ)
  | [], best => best
  | (i, j) :: rest, none =>
    fbmAux cs m rest (some (i, j, avgLinkage m (cs.getD i default) (cs.getD j default)))
  | (i, j) :: rest, some (bi, bj, bs) =>
    if bs < avgLinkage m (cs.getD i default) (cs.getD j default) then
      fbmAux cs m rest (some (i, j, avgLinkage m (cs.getD i default) (cs.getD j default)))
    else fbmAux cs m rest (some (bi, bj, bs))

/-- Embeds `findBestMerge(clusters, originalMatrix)`; `none` corresponds to
the JS `{i: -1, j: -1, similarity: -Infinity}` (no pair exists). -/
def findBestMerge (cs : List Cluster) (m : ℕ → ℕ → ℝ) : Option (ℕ × ℕ × ℝ) :=
  fbmAux cs m (pairsUpTo cs.length) none

/-- JS `Set` deduplication of a concatenation (`new Set([...a, ...b])`):
keep the first occurrence of each element, in order. -/
def dedupFirst (l : List Str) : List Str :=
  l.foldl (fun acc d => if acc.contains d then acc else acc ++ [d]) []

/-- Embeds `mergeClusters(c1, c2)`: concatenate members, union the domain
sets, recompute the centroid from all embeddings. -/
def mergeClusters (c1 c2 : Cluster) : Cluster :=
  { indices := c1.indices ++ c2.indices
    items := c1.items ++ c2.items
    embeddings := c1.embeddings ++ c2.embeddings
    domains := dedupFirst (c1.domains ++ c2.domains)
    centroid := computeCentroid (c1.embeddings ++ c2.embeddings)
    isMisc := false }

/-- The cluster-list update after a merge:
`clusters.filter((_, idx) => idx !== i && idx !== j)` (the running position
counter is `k`), with the merged cluster pushed at the end by the caller. -/
def removeTwoAux (i j : ℕ) : ℕ → List Cluster → List Cluster
  | _, [] => []
  | k, c :: rest =>
    if k = i ∨ k = j then removeTwoAux i j (k + 1) rest
    else c :: removeTwoAux i j (k + 1) rest

def removeTwo (cs : List Cluster) (i j : ℕ) : List Cluster :=
  removeTwoAux i j 0 cs

/-- One merge step of the agglomerative loop body (after the two stopping
tests have passed). -/
def mergeStep (cs : List Cluster) (i j : ℕ) : List Cluster :=
  removeTwo cs i j ++ [mergeClusters (cs.getD i default) (cs.getD j default)]

/-- The `while (clusters.length > targetGroups)` loop of
`agglomerativeClustering`, with fuel (each merge shrinks the list by one,
so `cs.length` fuel always suffices). -/
def agglomLoop (m : ℕ → ℕ → ℝ) (thr : ℝ) (target : ℕ) :
    ℕ → List Cluster → List Cluster
  | 0, cs => cs
  | fuel + 1, cs =>
    if cs.length ≤ target then cs
    else
      match findBestMerge cs m with
      | none => cs
      | some (i, j, s) =>
        if s < thr then cs
        else agglomLoop m thr target fuel (mergeStep cs i j)

/-- Embeds `agglomerativeClustering(tabVectors, similarityMatrix,
targetGroups)`. -/
def agglomerativeClustering (tvs : List TabVector) (m : ℕ → ℕ → ℝ)
    (target : ℕ) : List Cluster :=
  agglomLoop m (computeAdaptiveThreshold tvs.length target) target
    tvs.length (initialClusters tvs)

/-- Instrumented copy of `agglomLoop` that also records, for each merge
actually performed, the cluster count at that moment and the best-merge
similarity that justified it. -/
def agglomLoopTraced (m : ℕ → ℕ → ℝ) (thr : ℝ) (target : ℕ) :
    ℕ → List Cluster → List Cluster × List (ℕ × ℝ)
  | 0, cs => (cs, [])
  | fuel + 1, cs =>
    if cs.length ≤ target then (cs, [])
    else
      match findBestMerge cs m with
      | none => (cs, [])
      | some (i, j, s) =>
        if s < thr then (cs, [])
        else
          let r := agglomLoopTraced m thr target fuel (mergeStep cs i j)
          (r.1, (cs.length, s) :: r.2)

/-- The merge trace of a full `agglomerativeClustering` run. -/
def agglomMergeTrace (tvs : List TabVector) (m : ℕ → ℕ → ℝ) (target : ℕ) :
    List (ℕ × ℝ) :=
  (agglomLoopTraced m (computeAdaptiveThreshold tvs.length target) target
    tvs.length (initialClusters tvs)).2

/-! ## Singleton consolidation -/

/-- Embeds `absorbIntoCluster(source, target)` (mutates `target` in JS;
here the updated target is returned): push the source members, add its
domains, recompute the centroid from the extended embedding list. -/
def absorbIntoCluster (source target : Cluster) : Cluster :=
  { indices := target.indices ++ source.indices
    items := target.items ++ source.items
    embeddings := target.embeddings ++ source.embeddings
    domains := source.domains.foldl
      (fun acc d => if acc.contains d then acc else acc ++ [d]) target.domains
    centroid := computeCentroid (target.embeddings ++ source.embeddings)
    isMisc := target.isMisc }

/-- Embeds `cloneCluster(cluster)` (the object literal in the source lists
no `isMisc` field, so the clone's tag is falsy; clones are only ever made
of plain singletons). -/
def cloneCluster (c : Cluster) : Cluster :=
  { indices := c.indices
    items := c.items
    embeddings := c.embeddings
    domains := c.domains
    centroid := c.centroid
    isMisc := false }

/-- Embeds `createMiscCluster(orphans)`. -/
def createMiscCluster (orphans : List Cluster) : Cluster :=
  { indices := orphans.flatMap (fun o => o.indices)
    items := orphans.flatMap (fun o => o.items)
    embeddings := orphans.flatMap (fun o => o.embeddings)
    domains := dedupFirst (orphans.flatMap (fun o => o.domains))
    centroid := computeCentroid (orphans.flatMap (fun o => o.embeddings))
    isMisc := true }

/-- The running-best scan shared by the `for (const cluster of clusters)`
loops of `clusterSingletonsTogether` and `findClosestCluster`: a strict
`score > bestScore` update over scores `f`, starting from best score `-1`
and no best cluster (`null` is `none`); `k` is the running position. -/
def bestScanAux (f : Cluster → ℝ) : ℕ → List Cluster → Option ℕ × ℝ → Option ℕ × ℝ
  | _, [], best => best
  | k, c :: rest, (bI, bS) =>
    if bS < f c then bestScanAux f (k + 1) rest (some k, f c)
    else bestScanAux f (k + 1) rest (bI, bS)

/-- The pass-1 score of a singleton against a cluster formed so far:
centroid cosine plus a flat domain-membership boost. -/
def pass1Score (s : Cluster) (c : Cluster) : ℝ :=
  cosineSimilarity s.centroid c.centroid +
    (if c.domains.contains (s.items.headD default).domain
     then DOMAIN_AFFINITY_BOOST else 0)

/-- The `for (const singleton of singletons)` loop of
`clusterSingletonsTogether` over the working cluster list `acc`. -/
def pass1Aux : List Cluster → List Cluster → List Cluster
  | acc, [] => acc
  | acc, s :: rest =>
    match bestScanAux (pass1Score s) 0 acc (none, -1) with
    | (some k, score) =>
      if SINGLETON_CLUSTER_THRESHOLD ≤ score then
        pass1Aux (acc.set k (absorbIntoCluster s (acc.getD k default))) rest
      else pass1Aux (acc ++ [cloneCluster s]) rest
    | (none, _) => pass1Aux (acc ++ [cloneCluster s]) rest

/-- Embeds `clusterSingletonsTogether(singletons)`. -/
def clusterSingletonsTogether (singletons : List Cluster) : List Cluster :=
  if singletons.length ≤ 1 then singletons
  else pass1Aux [] singletons

/-- Embeds `findClosestCluster(singleton, clusters)`: raw centroid cosine,
no domain boost. -/
def findClosestCluster (s : Cluster) (cs : List Cluster) : Option ℕ × ℝ :=
  bestScanAux (fun c => cosineSimilarity s.centroid c.centroid) 0 cs (none, -1)

/-- The pass-2 absorption loop of `consolidateSingletons`: each orphan is
absorbed into its closest multi-cluster when the similarity clears
`SINGLETON_ABSORPTION_THRESHOLD`, else it joins `finalOrphans`.  Returns
(updated multi-cluster list, final orphans in input order). -/
def pass2Aux : List Cluster → List Cluster → List Cluster × List Cluster
  | multi, [] => (multi, [])
  | multi, o :: rest =>
    match findClosestCluster o multi with
    | (some k, sim) =>
      if SINGLETON_ABSORPTION_THRESHOLD ≤ sim then
        pass2Aux (multi.set k (absorbIntoCluster o (multi.getD k default))) rest
      else
        let r := pass2Aux multi rest
        (r.1, o :: r.2)
    | (none, _) =>
      let r := pass2Aux multi rest
      (r.1, o :: r.2)

/-- Passes 1 and 2 of `consolidateSingletons`, split out so the
multi-cluster list and the true-orphan list after pass 2 can be named:
split off the singletons, cluster them together, promote the newly
multi-item groups, then try to absorb the remaining orphans. -/
def consolidatePasses (clusters : List Cluster) : List Cluster × List Cluster :=
  let singletons := clusters.filter (fun c => c.items.length = 1)
  let multiClusters := clusters.filter (fun c => 1 < c.items.length)
  let singletonGroups := clusterSingletonsTogether singletons
  let newMulti := singletonGroups.filter (fun c => 1 < c.items.length)
  let orphans := singletonGroups.filter (fun c => c.items.length = 1)
  pass2Aux (multiClusters ++ newMulti) orphans

/-- Embeds `consolidateSingletons(clusters, groupCapacity)`. -/
def consolidateSingletons (clusters : List Cluster) (groupCapacity : ℕ) :
    List Cluster :=
  if (clusters.filter (fun c => c.items.length = 1)).length = 0 then clusters
  else
    let p := consolidatePasses clusters
    let multiClusters := p.1
    let finalOrphans := p.2
    if finalOrphans.length = 0 then multiClusters
    else if multiClusters.length + finalOrphans.length ≤ groupCapacity then
      multiClusters ++ finalOrphans
    else if MIN_ORPHANS_FOR_MISC ≤ finalOrphans.length then
      multiClusters ++ [createMiscCluster finalOrphans]
    else multiClusters ++ finalOrphans

/-! ## Cluster naming and output -/

/-- The fixed palette of `generateClusterMetadata`. -/
def clusterColors : List Str :=
  ["blue".toList, "green".toList, "yellow".toList, "red".toList,
   "pink".toList, "purple".toList, "cyan".toList, "orange".toList,
   "grey".toList]

/-- The indexed `for (let i = 0; ...)` loop of `generateClusterMetadata`:
single-item clusters are skipped (left ungrouped), every other cluster
becomes a result whose color is the palette entry at the loop index modulo
the palette size.  `nameFn` oracles `generateClusterName` (which calls the
embedding model); the catch-all always gets the sentinel label. -/
def metadataAux (nameFn : Cluster → Str) : ℕ → List Cluster → List ClusterResult
  | _, [] => []
  | i, c :: rest =>
    if c.items.length = 1 then metadataAux nameFn (i + 1) rest
    else
      { name := if c.isMisc then "MISC".toList else nameFn c
        color := clusterColors.getD (i % clusterColors.length) []
        tabIds := c.items.map (fun it => it.tabId) } :: metadataAux nameFn (i + 1) rest

/-- Embeds `generateClusterMetadata(clusters)`. -/
def generateClusterMetadata (nameFn : Cluster → Str) (clusters : List Cluster) :
    List ClusterResult :=
  metadataAux nameFn 0 clusters

/-! ## Main entry point -/

/-- Embeds `clusterTabs(tabs, screenWidth)` from the point where the
enriched, embedded item list is available (enrichment and embedding are
1:1 external-collaborator loops; the degenerate-input check happens on the
raw tab list, whose length equals `tvs.length`). -/
def clusterTabs (tvs : List TabVector) (screenWidth : ℕ)
    (nameFn : Cluster → Str) : List ClusterResult :=
  if tvs.length ≤ 2 then []
  else
    let similarityMatrix := buildSimilarityMatrix tvs
    let groupCapacity := calculateGroupCapacity screenWidth tvs.length
    let clusters := agglomerativeClustering tvs similarityMatrix groupCapacity
    let clusters2 := consolidateSingletons clusters groupCapacity
    generateClusterMetadata nameFn clusters2

/-! ## Basic lemmas about the similarity scorer -/

/-- The running-sum dot product of the source equals the indexed sum over
the common length. -/
theorem zipWith_mul_sum_eq (v1 v2 : Vec) :
    (List.zipWith (fun a b => a * b) v1 v2).sum =
      ∑ i ∈ Finset.range (min v1.length v2.length), v1.getD i 0 * v2.getD i 0 := by
  induction v1 generalizing v2 with
  | nil => simp
  | cons a t ih =>
    cases v2 with
    | nil => simp
    | cons b u =>
      simp only [List.zipWith_cons_cons, List.sum_cons, List.length_cons, ih u,
        Nat.succ_min_succ, Finset.sum_range_succ']
      simp [add_comm]

/-- The number of elements of `l1` that occur in `l2` is symmetric in `l1`
and `l2` when both lists are duplicate-free. -/
theorem length_filter_contains_comm {l1 l2 : List Str} (h1 : l1.Nodup) (h2 : l2.Nodup) :
    (l1.filter (fun t => l2.contains t)).length =
      (l2.filter (fun t => l1.contains t)).length := by
  have key : ∀ (a b : List Str), a.Nodup →
      (a.filter (fun t => b.contains t)).length = (a.toFinset ∩ b.toFinset).card := by
    intro a b ha
    have hnd : (a.filter (fun t => b.contains t)).Nodup := ha.filter _
    rw [← List.toFinset_card_of_nodup hnd, List.toFinset_filter]
    congr 1
    ext x
    simp [List.elem_iff]
  rw [key l1 l2 h1, key l2 l1 h2, Finset.inter_comm]

/-- C5: for every pair of featurized items `a` and `b` with embeddings,
`computePairwiseSimilarity a b` equals the dot product of their embeddings,
plus `DOMAIN_AFFINITY_BOOST` if `a.domain = b.domain` (else half that boost
if only `baseDomain` matches, else 0), plus, when the count `c` of shared
path tokens is positive, `URL_PATH_BOOST` scaled by
`c / max |a.pathTokens| (max |b.pathTokens| 1)` with the scale factor
capped at 1. -/
theorem pairwiseSimilarity_formula (a b : TabVector) :
    computePairwiseSimilarity a b =
      (∑ i ∈ Finset.range (min a.embedding.length b.embedding.length),
          a.embedding.getD i 0 * b.embedding.getD i 0) +
      (if a.domain = b.domain then DOMAIN_AFFINITY_BOOST
       else if a.baseDomain = b.baseDomain then DOMAIN_AFFINITY_BOOST / 2 else 0) +
      (if 0 < (a.pathTokens.filter (fun t => b.pathTokens.contains t)).length then
         URL_PATH_BOOST *
           min 1 (((a.pathTokens.filter (fun t => b.pathTokens.contains t)).length : ℝ) /
             max (a.pathTokens.length : ℝ) (max (b.pathTokens.length : ℝ) 1))
       else 0) := by
  simp only [computePairwiseSimilarity, cosineSimilarity, zipWith_mul_sum_eq]
  ring_nf

/-- Concrete items exhibiting the path-boost asymmetry: `symTabA` carries the
duplicate token list the featurizer produces on the URL path `/abc/abc`. -/
def symTabA : TabVector :=
  ⟨0, ['a'], ['a'], [['a', 'b', 'c'], ['a', 'b', 'c']], []⟩

def symTabB : TabVector :=
  ⟨1, ['b'], ['b'], [['a', 'b', 'c']], []⟩

/-- C6 counterexample: the similarity is NOT symmetric for all featurized
pairs.  With `a.pathTokens = [abc, abc]` (featurized from path `/abc/abc`,
as the first conjunct checks) and `b.pathTokens = [abc]`, the shared-token
count is 2 in one direction and 1 in the other, so the path boost differs
(0.08 versus 0.04). -/
theorem pairwiseSimilarity_symm_counterexample :
    (parseUrl (fun _ => some (['a'], "/abc/abc".toList)) []).pathTokens
        = symTabA.pathTokens ∧
    (parseUrl (fun _ => some (['a'], "/abc/abc".toList)) []).domain = symTabA.domain ∧
    computePairwiseSimilarity symTabA symTabB ≠
      computePairwiseSimilarity symTabB symTabA := by
  refine ⟨by decide, by decide, ?_⟩
  norm_num +decide [computePairwiseSimilarity, symTabA, symTabB, cosineSimilarity,
    URL_PATH_BOOST]

/-- C6 amended: `computePairwiseSimilarity` is symmetric for every pair of
items whose `pathTokens` lists are duplicate-free (the counterexample shows
duplicate path tokens break symmetry; featurized tokens are duplicate-free
whenever the URL path repeats no segment). -/
theorem pairwiseSimilarity_symm_of_nodup (a b : TabVector)
    (ha : a.pathTokens.Nodup) (hb : b.pathTokens.Nodup) :
    computePairwiseSimilarity a b = computePairwiseSimilarity b a := by
  have hdot : cosineSimilarity a.embedding b.embedding =
      cosineSimilarity b.embedding a.embedding := by
    unfold cosineSimilarity
    rw [List.zipWith_comm_of_comm _ mul_comm]
  have hcnt := length_filter_contains_comm ha hb
  have h1 : (a.domain = b.domain) = (b.domain = a.domain) := propext eq_comm
  have h2 : (a.baseDomain = b.baseDomain) = (b.baseDomain = a.baseDomain) :=
    propext eq_comm
  simp only [computePairwiseSimilarity, hdot, hcnt, h1, h2,
    max_left_comm (a.pathTokens.length : ℝ)]

/-- Witness for the amended C6 theorem at concrete duplicate-free inputs. -/
theorem pairwiseSimilarity_symm_of_nodup_witness :
    computePairwiseSimilarity ⟨0, ['a'], ['a'], [['a', 'b', 'c']], [1]⟩
        ⟨1, ['b'], ['b'], [['a', 'b', 'd']], [1]⟩ =
      computePairwiseSimilarity ⟨1, ['b'], ['b'], [['a', 'b', 'd']], [1]⟩
        ⟨0, ['a'], ['a'], [['a', 'b', 'c']], [1]⟩ :=
  pairwiseSimilarity_symm_of_nodup _ _ (by decide) (by decide)

/-! ## The featurizer (C8) -/

/-- Dropping all but the last two elements of a list with at least two
elements leaves exactly the last two. -/
theorem drop_length_sub_two {α} (l : List α) (d : α) (h : 2 ≤ l.length) :
    l.drop (l.length - 2) = [l.getD (l.length - 2) d, l.getD (l.length - 1) d] := by
  induction l with
  | nil => simp at h
  | cons a t ih =>
    cases t with
    | nil => simp at h
    | cons b u =>
      cases u with
      | nil => simp
      | cons c v =>
        have h2 : 2 ≤ (b :: c :: v).length := by simp
        have harith : (a :: b :: c :: v).length - 2 = ((b :: c :: v).length - 2) + 1 := by
          simp only [List.length_cons]
          omega
        have g1 : (a :: b :: c :: v).getD ((a :: b :: c :: v).length - 2) d
            = (b :: c :: v).getD ((b :: c :: v).length - 2) d := by
          rw [harith, List.getD_cons_succ]
        have g2 : (a :: b :: c :: v).getD ((a :: b :: c :: v).length - 1) d
            = (b :: c :: v).getD ((b :: c :: v).length - 1) d := by
          rw [show (a :: b :: c :: v).length - 1 = ((b :: c :: v).length - 1) + 1 by
            simp only [List.length_cons]; omega, List.getD_cons_succ]
        rw [harith, List.drop_succ_cons, ih h2, ← g1, ← g2, ← harith]

/-- C8: for every URL-parser behavior and every URL string the featurizer is
a total function (never throws) and returns: the empty parts on parse
failure; otherwise `domain` is the hostname with one leading `"www."`
stripped, `baseDomain` is the concatenation of the last two dot-separated
labels of `domain` when there are at least two (else `domain` itself), and
`pathTokens` is the path split on `/`, `-`, `_` with tokens of length at
most 2 discarded and the first 5 survivors kept in order. -/
theorem parseUrl_spec (parse : Str → Option (Str × Str)) (url : Str) :
    (parse url = none → parseUrl parse url = ⟨[], [], []⟩) ∧
    (∀ host path, parse url = some (host, path) →
      (parseUrl parse url).domain =
        (if ("www.".toList).isPrefixOf host then host.drop 4 else host) ∧
      (parseUrl parse url).baseDomain =
        (let parts := splitChars (fun c => c == '.') (parseUrl parse url).domain
         if 2 ≤ parts.length then
           List.intercalate ['.']
             [parts.getD (parts.length - 2) [], parts.getD (parts.length - 1) []]
         else (parseUrl parse url).domain) ∧
      (parseUrl parse url).pathTokens =
        ((splitChars isPathSep path).filter (fun t => !decide (t.length ≤ 2))).take 5) := by
  constructor
  · intro h
    simp [parseUrl, h]
  · intro host path h
    have hfilter : ∀ (l : List Str),
        l.filter (fun t => 2 < t.length) = l.filter (fun t => !decide (t.length ≤ 2)) := by
      intro l
      apply List.filter_congr
      intro t _
      by_cases ht : 2 < t.length
      · simp [ht, Nat.not_le.mpr ht]
      · simp [ht, Nat.le_of_not_lt ht]
    refine ⟨?_, ?_, ?_⟩
    · simp [parseUrl, h]
    · simp only [parseUrl, h]
      set parts := splitChars (fun c => c == '.')
        (if ("www.".toList).isPrefixOf host then host.drop 4 else host) with hp
      by_cases hlen : 2 ≤ parts.length
      · simp only [hlen, if_true]
        rw [drop_length_sub_two parts [] hlen]
      · simp [hlen]
    · simp [parseUrl, h, hfilter]

/-- Concrete URL-parser oracle used by the C8 witness. -/
def urlOracle : Str → Option (Str × Str) := fun s =>
  if s = "u".toList then
    some ("www.docs.example.com".toList, "/getting-started/install/x".toList)
  else none

/-- Witness for C8 at a concrete parsed URL. -/
theorem parseUrl_spec_witness :
    (parseUrl urlOracle "u".toList).domain = "docs.example.com".toList ∧
    (parseUrl urlOracle "u".toList).baseDomain = "example.com".toList ∧
    (parseUrl urlOracle "u".toList).pathTokens =
      ["getting".toList, "started".toList, "install".toList] := by
  have h := (parseUrl_spec urlOracle ("u".toList)).2
    ("www.docs.example.com".toList) ("/getting-started/install/x".toList) (by decide)
  exact ⟨h.1.trans (by decide), h.2.1.trans (by decide), h.2.2.trans (by decide)⟩

/-! ## Centroids as normalized means (C3) -/

/-- Componentwise scaling of a vector. -/
def vecScale (r : ℝ) (v : Vec) : Vec := v.map (fun x => r * x)

/-- The (componentwise) mean of a list of vectors. -/
def vecMean (l : List Vec) : Vec := vecScale (1 / (l.length : ℝ)) (sumVecs l)

/-- The Euclidean norm of a vector. -/
def l2norm (v : Vec) : ℝ := Real.sqrt ((v.map (fun x => x * x)).sum)

/-- L2 normalization, with the zero vector (the only vector of norm 0)
mapped to itself. -/
def l2normalize (v : Vec) : Vec :=
  if l2norm v = 0 then v else vecScale (1 / l2norm v) v

theorem sumSq_nonneg (v : Vec) : 0 ≤ (v.map (fun x => x * x)).sum := by
  induction v with
  | nil => simp
  | cons a t ih =>
    simp only [List.map_cons, List.sum_cons]
    nlinarith [mul_self_nonneg a]

theorem sumSq_eq_zero {v : Vec} (h : (v.map (fun x => x * x)).sum = 0) :
    ∀ x ∈ v, x = 0 := by
  induction v with
  | nil => simp
  | cons a t ih =>
    simp only [List.map_cons, List.sum_cons] at h
    have ht := sumSq_nonneg t
    have ha0 : a = 0 := by nlinarith [mul_self_nonneg a]
    intro x hx
    rcases List.mem_cons.mp hx with rfl | hx
    · exact ha0
    · exact ih (by nlinarith) x hx

theorem sumSq_scale (r : ℝ) (v : Vec) :
    ((vecScale r v).map (fun x => x * x)).sum =
      r ^ 2 * (v.map (fun x => x * x)).sum := by
  induction v with
  | nil => simp [vecScale]
  | cons a t ih =>
    simp only [vecScale, List.map_cons, List.sum_cons] at ih ⊢
    ring_nf
    linarith [ih]

theorem l2norm_scale_nonneg {r : ℝ} (hr : 0 ≤ r) (v : Vec) :
    l2norm (vecScale r v) = r * l2norm v := by
  unfold l2norm
  rw [sumSq_scale, Real.sqrt_mul (sq_nonneg r), Real.sqrt_sq hr]

theorem vecScale_of_all_zero {v : Vec} (r : ℝ) (h : ∀ x ∈ v, x = 0) :
    vecScale r v = v := by
  induction v with
  | nil => rfl
  | cons a t ih =>
    have ha := h a (List.mem_cons_self a t)
    simp only [vecScale, List.map_cons] at ih ⊢
    rw [ha]
    simp only [mul_zero]
    rw [ih (fun x hx => h x (List.mem_cons_of_mem a hx))]

/-- The heart of C3: on two or more embeddings, `computeCentroid` (which
normalizes the raw sum) returns exactly the L2-normalized mean, the
normalization of the zero mean being the zero vector itself. -/
theorem computeCentroid_eq_l2normalize_mean (embs : List Vec)
    (h : 2 ≤ embs.length) :
    computeCentroid embs = l2normalize (vecMean embs) := by
  obtain ⟨e1, e2, rest, rfl⟩ : ∃ e1 e2 rest, embs = e1 :: e2 :: rest := by
    match embs, h with
    | e1 :: e2 :: rest, _ => exact ⟨e1, e2, rest, rfl⟩
  set embs := e1 :: e2 :: rest with hembs
  set s := sumVecs embs with hs
  set S := (s.map (fun x => x * x)).sum with hS
  have hS0 : 0 ≤ S := sumSq_nonneg s
  have hk : (0 : ℝ) < (embs.length : ℝ) := by
    simp [hembs]
    positivity
  have hkne : ((embs.length : ℝ)) ≠ 0 := ne_of_gt hk
  have hcc : computeCentroid embs =
      if 0 < Real.sqrt S then s.map (fun x => x / Real.sqrt S) else s := rfl
  have hmean : vecMean embs = vecScale (1 / (embs.length : ℝ)) s := rfl
  have hnorm : l2norm (vecMean embs) = (1 / (embs.length : ℝ)) * Real.sqrt S := by
    rw [hmean, l2norm_scale_nonneg (by positivity)]
    rfl
  by_cases hmag : 0 < Real.sqrt S
  · have hne : l2norm (vecMean embs) ≠ 0 := by
      rw [hnorm]
      positivity
    rw [hcc, if_pos hmag]
    unfold l2normalize
    rw [if_neg hne, hnorm, hmean]
    unfold vecScale
    rw [List.map_map]
    apply List.map_congr_left
    intro x _
    field_simp
  · have hsqrt0 : Real.sqrt S = 0 := by
      rcases lt_or_eq_of_le (Real.sqrt_nonneg S) with hlt | heq
      · exact absurd hlt hmag
      · exact heq.symm
    have hSz : S = 0 := by
      have := Real.sqrt_eq_zero hS0
      rw [this] at hsqrt0
      exact hsqrt0
    have hz : ∀ x ∈ s, x = 0 := sumSq_eq_zero (by rw [← hS]; exact hSz)
    rw [hcc, if_neg hmag]
    have hm0 : l2norm (vecMean embs) = 0 := by
      rw [hnorm, hsqrt0]
      ring
    unfold l2normalize
    rw [if_pos hm0, hmean, vecScale_of_all_zero _ hz]

/-- C3: after every cluster-forming or cluster-modifying operation, the
centroid field equals the L2-normalized mean of the member embeddings, and
for a single-member cluster it is exactly that member's embedding: initial
singleton creation stores the member's embedding, `computeCentroid` of one
embedding is that embedding, and merges, singleton absorptions and
catch-all creation all store the L2-normalized mean of all member
embeddings. -/
theorem centroid_invariant :
    (∀ tvs : List TabVector,
      (initialClusters tvs).map (fun c => c.centroid) =
          tvs.map (fun tv => tv.embedding) ∧
      (initialClusters tvs).map (fun c => c.embeddings) =
          tvs.map (fun tv => [tv.embedding])) ∧
    (∀ e : Vec, computeCentroid [e] = e) ∧
    (∀ c1 c2 : Cluster, c1.embeddings ≠ [] → c2.embeddings ≠ [] →
      (mergeClusters c1 c2).centroid =
        l2normalize (vecMean ((mergeClusters c1 c2).embeddings))) ∧
    (∀ s t : Cluster, s.embeddings ≠ [] → t.embeddings ≠ [] →
      (absorbIntoCluster s t).centroid =
        l2normalize (vecMean ((absorbIntoCluster s t).embeddings))) ∧
    (∀ orphans : List Cluster,
      2 ≤ (orphans.flatMap (fun o => o.embeddings)).length →
      (createMiscCluster orphans).centroid =
        l2normalize (vecMean ((createMiscCluster orphans).embeddings))) := by
  have hlen : ∀ (l1 l2 : List Vec), l1 ≠ [] → l2 ≠ [] → 2 ≤ (l1 ++ l2).length := by
    intro l1 l2 h1 h2
    have p1 : 0 < l1.length := List.length_pos.mpr h1
    have p2 : 0 < l2.length := List.length_pos.mpr h2
    simp only [List.length_append]
    omega
  refine ⟨?_, ?_, ?_, ?_, ?_⟩
  · intro tvs
    constructor
    · unfold initialClusters
      conv_rhs => rw [← List.enum_map_snd tvs]
      rw [List.map_map, List.map_map]
      rfl
    · unfold initialClusters
      conv_rhs => rw [← List.enum_map_snd tvs]
      rw [List.map_map, List.map_map]
      rfl
  · intro e
    rfl
  · intro c1 c2 h1 h2
    exact computeCentroid_eq_l2normalize_mean _ (hlen _ _ h1 h2)
  · intro s t h1 h2
    exact computeCentroid_eq_l2normalize_mean _ (hlen _ _ h2 h1)
  · intro orphans h
    exact computeCentroid_eq_l2normalize_mean _ h

/-- Witness for C3's merge clause at a concrete pair of singleton clusters. -/
theorem centroid_invariant_witness :
    (mergeClusters ⟨[0], [], [[1]], [], [1], false⟩
        ⟨[1], [], [[1]], [], [1], false⟩).centroid =
      l2normalize (vecMean ((mergeClusters ⟨[0], [], [[1]], [], [1], false⟩
        ⟨[1], [], [[1]], [], [1], false⟩).embeddings)) :=
  centroid_invariant.2.2.1 _ _ (by simp) (by simp)

/-! ## The degenerate-input short circuit (C7) -/

/-- C7: for every input list of at most 2 items, `clusterTabs` returns the
empty result list (the pipeline is short-circuited before any clustering). -/
theorem clusterTabs_small_empty (tvs : List TabVector) (sw : ℕ)
    (nf : Cluster → Str) (h : tvs.length ≤ 2) : clusterTabs tvs sw nf = [] := by
  unfold clusterTabs
  simp [h]

/-- Witness for C7 on a concrete one-item input. -/
theorem clusterTabs_small_empty_witness :
    clusterTabs [⟨0, [], [], [], []⟩] 1920 (fun _ => []) = [] :=
  clusterTabs_small_empty _ _ _ (by simp)

/-! ## Structural lemmas: the merge loop permutes no membership -/

/-- Once the running position is past both removed indices, the index filter
keeps everything. -/
theorem removeTwoAux_past (i j : ℕ) :
    ∀ (cs : List Cluster) (k : ℕ), i < k → j < k → removeTwoAux i j k cs = cs := by
  intro cs
  induction cs with
  | nil => intro k _ _; rfl
  | cons c rest ih =>
    intro k hi hj
    unfold removeTwoAux
    rw [if_neg (by omega)]
    rw [ih (k + 1) (by omega) (by omega)]

/-- With only the second removed index ahead, filtering removes exactly the
element at relative position `j - k`. -/
theorem removeTwoAux_one (i j : ℕ) :
    ∀ (cs : List Cluster) (k : ℕ), i < k → k ≤ j → j - k < cs.length →
      List.Perm cs (cs.getD (j - k) default :: removeTwoAux i j k cs) := by
  intro cs
  induction cs with
  | nil => intro k _ _ h; simp at h
  | cons c rest ih =>
    intro k hi hkj hlt
    by_cases hkj' : k = j
    · subst hkj'
      unfold removeTwoAux
      rw [if_pos (Or.inr rfl)]
      rw [removeTwoAux_past i k rest (k + 1) (by omega) (by omega)]
      simp
    · have hjk1 : 1 ≤ j - k := by omega
      unfold removeTwoAux
      rw [if_neg (by omega)]
      have hrec := ih (k + 1) (by omega) (by omega)
        (by simp only [List.length_cons] at hlt; omega)
      have hidx : j - k = (j - (k + 1)) + 1 := by omega
      rw [hidx, List.getD_cons_succ]
      exact ((hrec.cons c).trans
        (List.Perm.swap (rest.getD (j - (k + 1)) default) c _)).symm.symm

/-- Removing the elements at relative positions `i - k` and `j - k` is a
two-element extraction, up to permutation. -/
theorem removeTwoAux_two (i j : ℕ) :
    ∀ (cs : List Cluster) (k : ℕ), k ≤ i → i < j → j - k < cs.length →
      List.Perm cs (cs.getD (i - k) default :: cs.getD (j - k) default ::
        removeTwoAux i j k cs) := by
  intro cs
  induction cs with
  | nil => intro k _ _ h; simp at h
  | cons c rest ih =>
    intro k hki hij hlt
    by_cases hk : k = i
    · subst hk
      have hjk1 : 1 ≤ j - k := by omega
      unfold removeTwoAux
      rw [if_pos (Or.inl rfl)]
      have hrec := removeTwoAux_one k j rest (k + 1) (by omega) (by omega)
        (by simp only [List.length_cons] at hlt; omega)
      have hidx : j - k = (j - (k + 1)) + 1 := by omega
      rw [hidx, List.getD_cons_succ]
      simpa using hrec.cons c
    · have hik1 : 1 ≤ i - k := by omega
      have hjk1 : 1 ≤ j - k := by omega
      unfold removeTwoAux
      rw [if_neg (by omega)]
      have hrec := ih (k + 1) (by omega) hij
        (by simp only [List.length_cons] at hlt; omega)
      have hidxi : i - k = (i - (k + 1)) + 1 := by omega
      have hidxj : j - k = (j - (k + 1)) + 1 := by omega
      rw [hidxi, hidxj, List.getD_cons_succ, List.getD_cons_succ]
      set a := rest.getD (i - (k + 1)) default
      set b := rest.getD (j - (k + 1)) default
      set R := removeTwoAux i j (k + 1) rest
      have h1 : List.Perm (c :: rest) (c :: a :: b :: R) := hrec.cons c
      have h2 : List.Perm (c :: a :: b :: R) (a :: c :: b :: R) :=
        List.Perm.swap a c _
      have h3 : List.Perm (a :: c :: b :: R) (a :: b :: c :: R) :=
        (List.Perm.swap b c _).cons a
      exact (h1.trans h2).trans h3

/-- The cluster list is a permutation of the two merged clusters plus the
filtered remainder. -/
theorem removeTwo_perm (cs : List Cluster) (i j : ℕ) (hij : i < j)
    (hj : j < cs.length) :
    List.Perm cs (cs.getD i default :: cs.getD j default :: removeTwo cs i j) := by
  have := removeTwoAux_two i j cs 0 (Nat.zero_le i) hij (by simpa using hj)
  simpa [removeTwo] using this

/-! ## Validity of the best-merge and best-scan searches -/

theorem pairsUpTo_mem {n i j : ℕ} (h : (i, j) ∈ pairsUpTo n) : i < j ∧ j < n := by
  simp only [pairsUpTo, List.mem_flatMap, List.mem_map, List.mem_filter,
    List.mem_range] at h
  obtain ⟨a, ha, b, ⟨hb, hab⟩, heq⟩ := h
  cases heq
  exact ⟨by simpa using hab, hb⟩

/-- Any pair returned by the best-merge fold satisfies a property holding of
the initial candidate (when present) and of all scanned pairs. -/
theorem fbmAux_some (cs : List Cluster) (m : ℕ → ℕ → ℝ) (P : ℕ → ℕ → Prop) :
    ∀ (ps : List (ℕ × ℕ)) (b : Option (ℕ × ℕ × ℝ)),
      (∀ q ∈ ps, P q.1 q.2) →
      (∀ bi bj bs, b = some (bi, bj, bs) → P bi bj) →
      ∀ i j s, fbmAux cs m ps b = some (i, j, s) → P i j := by
  intro ps
  induction ps with
  | nil =>
    intro b _ hb i j s h
    exact hb i j s h
  | cons q rest ih =>
    intro b hps hb i j s h
    obtain ⟨qi, qj⟩ := q
    have hqP : P qi qj := hps (qi, qj) (List.mem_cons_self _ _)
    have hrest : ∀ p ∈ rest, P p.1 p.2 := fun p hp => hps p (List.mem_cons_of_mem _ hp)
    cases b with
    | none =>
      rw [fbmAux] at h
      refine ih _ hrest ?_ i j s h
      intro bi bj bs hbeq
      cases hbeq
      exact hqP
    | some best =>
      obtain ⟨bi, bj, bs⟩ := best
      rw [fbmAux] at h
      by_cases hlt : bs < avgLinkage m (cs.getD qi default) (cs.getD qj default)
      · rw [if_pos hlt] at h
        refine ih _ hrest ?_ i j s h
        intro bi' bj' bs' hbeq
        cases hbeq
        exact hqP
      · rw [if_neg hlt] at h
        refine ih _ hrest ?_ i j s h
        intro bi' bj' bs' hbeq
        cases hbeq
        exact hb bi bj bs rfl

/-- A successful `findBestMerge` names a genuine pair of positions. -/
theorem findBestMerge_some {cs : List Cluster} {m : ℕ → ℕ → ℝ} {i j : ℕ} {s : ℝ}
    (h : findBestMerge cs m = some (i, j, s)) : i < j ∧ j < cs.length := by
  exact fbmAux_some cs m (fun a b => a < b ∧ b < cs.length) (pairsUpTo cs.length)
    none (fun q hq => pairsUpTo_mem hq) (by intro _ _ _ h; cases h) i j s h

/-- A successful best scan names a genuine position of the scanned list. -/
theorem bestScanAux_some_bound (g : Cluster → ℝ) :
    ∀ (cs : List Cluster) (k0 : ℕ) (b : Option ℕ × ℝ) (n : ℕ),
      k0 + cs.length ≤ n → (∀ x, b.1 = some x → x < n) →
      ∀ k, (bestScanAux g k0 cs b).1 = some k → k < n := by
  intro cs
  induction cs with
  | nil =>
    intro k0 b n _ hb k h
    exact hb k h
  | cons c rest ih =>
    intro k0 b n hlen hb k h
    obtain ⟨bI, bS⟩ := b
    unfold bestScanAux at h
    by_cases hlt : bS < g c
    · rw [if_pos hlt] at h
      refine ih (k0 + 1) (some k0, g c) n (by simp only [List.length_cons] at hlen; omega)
        ?_ k h
      intro x hx
      have : k0 = x := Option.some.inj hx
      subst this
      simp only [List.length_cons] at hlen
      omega
    · rw [if_neg hlt] at h
      exact ih (k0 + 1) (bI, bS) n (by simp only [List.length_cons] at hlen; omega)
        (fun x hx => hb x hx) k h

/-! ## Membership bookkeeping of the consolidation passes

Each of the following lemmas is generic in a projection `f` of clusters to
lists (instantiated with member indices and with member items) that is
compatible with the three cluster-building operations. -/

/-- Absorbing `s` into the cluster at a valid position `k` adds exactly
`f s` to the concatenated projection, up to permutation. -/
theorem flatMap_set_absorb {α : Type} (f : Cluster → List α)
    (habs : ∀ s t, f (absorbIntoCluster s t) = f t ++ f s) :
    ∀ (l : List Cluster) (k : ℕ), k < l.length → ∀ (s : Cluster),
      List.Perm ((l.set k (absorbIntoCluster s (l.getD k default))).flatMap f)
        (l.flatMap f ++ f s) := by
  intro l
  induction l with
  | nil => intro k hk; simp at hk
  | cons c t ih =>
    intro k hk s
    cases k with
    | zero =>
      simp only [List.set_cons_zero, List.getD_cons_zero, List.flatMap_cons, habs]
      rw [List.append_assoc, List.append_assoc]
      exact List.Perm.append_left _ List.perm_append_comm
    | succ k =>
      simp only [List.set_cons_succ, List.getD_cons_succ, List.flatMap_cons]
      have hk' : k < t.length := by simp only [List.length_cons] at hk; omega
      have := (ih k hk' s).append_left (f c)
      rw [← List.append_assoc] at this
      exact this

/-- Pass 1 (`clusterSingletonsTogether`'s loop) only redistributes members:
the projections of the final working list are a permutation of those of the
initial working list plus those of the processed singletons. -/
theorem pass1Aux_perm {α : Type} (f : Cluster → List α)
    (habs : ∀ s t, f (absorbIntoCluster s t) = f t ++ f s)
    (hclone : ∀ c, f (cloneCluster c) = f c) :
    ∀ (ss acc : List Cluster),
      List.Perm ((pass1Aux acc ss).flatMap f) (acc.flatMap f ++ ss.flatMap f) := by
  intro ss
  induction ss with
  | nil => intro acc; simp [pass1Aux]
  | cons s rest ih =>
    intro acc
    rw [pass1Aux]
    split
    · rename_i k score heq
      split
      · rename_i hth
        have hk : k < acc.length := by
          refine bestScanAux_some_bound (pass1Score s) acc 0 (none, -1) acc.length
            (by omega) ?_ k ?_
          · intro x hx; cases hx
          · rw [heq]
        refine (ih _).trans ?_
        have h1 := (flatMap_set_absorb f habs acc k hk s).append_right (rest.flatMap f)
        refine h1.trans ?_
        rw [List.append_assoc, List.flatMap_cons]
      · refine (ih _).trans ?_
        rw [List.flatMap_append, List.flatMap_cons, List.flatMap_cons,
          List.flatMap_nil, List.append_nil, hclone, List.append_assoc]
    · refine (ih _).trans ?_
      rw [List.flatMap_append, List.flatMap_cons, List.flatMap_cons,
        List.flatMap_nil, List.append_nil, hclone, List.append_assoc]

/-- Pass 2 (`consolidateSingletons`'s absorption loop) only redistributes
members between the multi-cluster list and the final-orphan list. -/
theorem pass2Aux_perm {α : Type} (f : Cluster → List α)
    (habs : ∀ s t, f (absorbIntoCluster s t) = f t ++ f s) :
    ∀ (os multi : List Cluster),
      List.Perm ((pass2Aux multi os).1.flatMap f ++ (pass2Aux multi os).2.flatMap f)
        (multi.flatMap f ++ os.flatMap f) := by
  intro os
  induction os with
  | nil => intro multi; simp [pass2Aux]
  | cons o rest ih =>
    intro multi
    rw [pass2Aux]
    split
    · rename_i k sim heq
      split
      · rename_i hth
        have hk : k < multi.length := by
          refine bestScanAux_some_bound
            (fun c => cosineSimilarity o.centroid c.centroid) multi 0 (none, -1)
            multi.length (by omega) ?_ k ?_
          · intro x hx; cases hx
          · exact congrArg Prod.fst heq
        refine (ih _).trans ?_
        have h1 := (flatMap_set_absorb f habs multi k hk o).append_right (rest.flatMap f)
        refine h1.trans ?_
        rw [List.append_assoc, List.flatMap_cons]
      · simp only [List.flatMap_cons]
        have step1 : List.Perm
            ((pass2Aux multi rest).1.flatMap f ++ (f o ++ (pass2Aux multi rest).2.flatMap f))
            ((pass2Aux multi rest).1.flatMap f ++ ((pass2Aux multi rest).2.flatMap f ++ f o)) :=
          List.Perm.append_left _ List.perm_append_comm
        refine step1.trans ?_
        rw [← List.append_assoc]
        refine ((ih multi).append_right (f o)).trans ?_
        rw [List.append_assoc]
        exact List.Perm.append_left _ List.perm_append_comm
    · simp only [List.flatMap_cons]
      have step1 : List.Perm
          ((pass2Aux multi rest).1.flatMap f ++ (f o ++ (pass2Aux multi rest).2.flatMap f))
          ((pass2Aux multi rest).1.flatMap f ++ ((pass2Aux multi rest).2.flatMap f ++ f o)) :=
        List.Perm.append_left _ List.perm_append_comm
      refine step1.trans ?_
      rw [← List.append_assoc]
      refine ((ih multi).append_right (f o)).trans ?_
      rw [List.append_assoc]
      exact List.Perm.append_left _ List.perm_append_comm

theorem perm_middle_swap {α : Type} (x A B : List α) :
    List.Perm (x ++ (A ++ B)) (A ++ (x ++ B)) := by
  rw [← List.append_assoc, ← List.append_assoc]
  exact List.perm_append_comm.append_right B

theorem flatMap_pure_eq_map {α β : Type} (g : α → β) (l : List α) :
    l.flatMap (fun x => [g x]) = l.map g := by
  induction l with
  | nil => rfl
  | cons a t ih => simp [ih]

/-- Every cluster with at least one member lands in exactly one of the two
filters `consolidateSingletons` splits on. -/
theorem flatMap_filter_partition {α : Type} (f : Cluster → List α)
    (cs : List Cluster) (h : ∀ c ∈ cs, 0 < c.items.length) :
    List.Perm (cs.flatMap f)
      ((cs.filter (fun c => c.items.length = 1)).flatMap f ++
       (cs.filter (fun c => 1 < c.items.length)).flatMap f) := by
  induction cs with
  | nil => simp
  | cons c t ih =>
    have hc := h c (List.mem_cons_self c t)
    have ht : ∀ x ∈ t, 0 < x.items.length := fun x hx => h x (List.mem_cons_of_mem c hx)
    by_cases h1 : c.items.length = 1
    · have h2 : ¬ 1 < c.items.length := by omega
      rw [List.flatMap_cons, List.filter_cons, List.filter_cons,
        if_pos (by simpa using h1), if_neg (by simpa using h2), List.flatMap_cons,
        List.append_assoc]
      exact (ih ht).append_left (f c)
    · have h2 : 1 < c.items.length := by omega
      rw [List.flatMap_cons, List.filter_cons, List.filter_cons,
        if_neg (by simpa using h1), if_pos (by simpa using h2), List.flatMap_cons]
      exact ((ih ht).append_left (f c)).trans
        (perm_middle_swap (f c) ((t.filter (fun c => c.items.length = 1)).flatMap f)
          ((t.filter (fun c => 1 < c.items.length)).flatMap f))

/-- Pass 1 keeps every working cluster inhabited. -/
theorem pass1Aux_items_pos :
    ∀ (ss acc : List Cluster), (∀ c ∈ acc, 0 < c.items.length) →
      (∀ c ∈ ss, 0 < c.items.length) →
      ∀ c ∈ pass1Aux acc ss, 0 < c.items.length := by
  intro ss
  induction ss with
  | nil =>
    intro acc hacc _ c hm
    rw [pass1Aux] at hm
    exact hacc c hm
  | cons s rest ih =>
    intro acc hacc hss c hm
    have hs : 0 < s.items.length := hss s (List.mem_cons_self s rest)
    have hrest : ∀ x ∈ rest, 0 < x.items.length :=
      fun x hx => hss x (List.mem_cons_of_mem s hx)
    rw [pass1Aux] at hm
    revert hm
    split
    · rename_i k score heq
      split
      · intro hm
        refine ih _ ?_ hrest c hm
        intro d hd
        rcases List.mem_or_eq_of_mem_set hd with hd' | rfl
        · exact hacc d hd'
        · simp only [absorbIntoCluster, List.length_append]
          omega
      · intro hm
        refine ih _ ?_ hrest c hm
        intro d hd
        rcases List.mem_append.mp hd with hd' | hd'
        · exact hacc d hd'
        · rcases List.mem_singleton.mp hd' with rfl
          simpa [cloneCluster] using hs
    · intro hm
      refine ih _ ?_ hrest c hm
      intro d hd
      rcases List.mem_append.mp hd with hd' | hd'
      · exact hacc d hd'
      · rcases List.mem_singleton.mp hd' with rfl
        simpa [cloneCluster] using hs

/-- Pass 2 keeps every multi-cluster strictly multi-member. -/
theorem pass2Aux_fst_gt :
    ∀ (os multi : List Cluster), (∀ c ∈ multi, 1 < c.items.length) →
      ∀ c ∈ (pass2Aux multi os).1, 1 < c.items.length := by
  intro os
  induction os with
  | nil =>
    intro multi hm c hc
    rw [pass2Aux] at hc
    exact hm c hc
  | cons o rest ih =>
    intro multi hm c hc
    rw [pass2Aux] at hc
    revert hc
    split
    · rename_i k sim heq
      split
      · intro hc
        refine ih _ ?_ c hc
        intro d hd
        rcases List.mem_or_eq_of_mem_set hd with hd' | rfl
        · exact hm d hd'
        · have hk : k < multi.length := by
            refine bestScanAux_some_bound
              (fun c => cosineSimilarity o.centroid c.centroid) multi 0 (none, -1)
              multi.length (by omega) ?_ k ?_
            · intro x hx; cases hx
            · exact congrArg Prod.fst heq
          have hmem : multi.getD k default ∈ multi := by
            rw [List.getD_eq_getElem multi default hk]
            exact List.getElem_mem hk
          have := hm _ hmem
          simp only [absorbIntoCluster, List.length_append]
          omega
      · intro hc
        exact ih _ hm c hc
    · intro hc
      exact ih _ hm c hc

/-- Every final orphan produced by pass 2 is one of the input orphans. -/
theorem pass2Aux_snd_sub :
    ∀ (os multi : List Cluster), ∀ c ∈ (pass2Aux multi os).2, c ∈ os := by
  intro os
  induction os with
  | nil =>
    intro multi c hc
    rw [pass2Aux] at hc
    cases hc
  | cons o rest ih =>
    intro multi c hc
    rw [pass2Aux] at hc
    revert hc
    split
    · rename_i k sim heq
      split
      · intro hc
        exact List.mem_cons_of_mem o (ih _ c hc)
      · intro hc
        rcases List.mem_cons.mp hc with rfl | hc'
        · exact List.mem_cons_self _ _
        · exact List.mem_cons_of_mem o (ih _ c hc')
    · intro hc
      rcases List.mem_cons.mp hc with rfl | hc'
      · exact List.mem_cons_self _ _
      · exact List.mem_cons_of_mem o (ih _ c hc')

theorem clusterSingletonsTogether_perm {α : Type} (f : Cluster → List α)
    (habs : ∀ s t, f (absorbIntoCluster s t) = f t ++ f s)
    (hclone : ∀ c, f (cloneCluster c) = f c) (ss : List Cluster) :
    List.Perm ((clusterSingletonsTogether ss).flatMap f) (ss.flatMap f) := by
  unfold clusterSingletonsTogether
  split
  · exact List.Perm.refl _
  · simpa using pass1Aux_perm f habs hclone ss []

theorem clusterSingletonsTogether_pos (ss : List Cluster)
    (h : ∀ c ∈ ss, 0 < c.items.length) :
    ∀ c ∈ clusterSingletonsTogether ss, 0 < c.items.length := by
  unfold clusterSingletonsTogether
  split
  · exact h
  · exact pass1Aux_items_pos ss [] (by intro c hc; cases hc) h

/-- Passes 1 and 2 taken together only redistribute members. -/
theorem consolidatePasses_perm {α : Type} (f : Cluster → List α)
    (habs : ∀ s t, f (absorbIntoCluster s t) = f t ++ f s)
    (hclone : ∀ c, f (cloneCluster c) = f c)
    (cs : List Cluster) (hpos : ∀ c ∈ cs, 0 < c.items.length) :
    List.Perm
      ((consolidatePasses cs).1.flatMap f ++ (consolidatePasses cs).2.flatMap f)
      (cs.flatMap f) := by
  unfold consolidatePasses
  refine (pass2Aux_perm f habs _ _).trans ?_
  rw [List.flatMap_append, List.append_assoc]
  have hsingle : ∀ c ∈ cs.filter (fun c => c.items.length = 1), 0 < c.items.length := by
    intro c hc
    have := (List.mem_filter.mp hc).2
    simp only [decide_eq_true_eq] at this
    omega
  have hsg_pos := clusterSingletonsTogether_pos _ hsingle
  have hsg := flatMap_filter_partition f
    (clusterSingletonsTogether (cs.filter (fun c => c.items.length = 1))) hsg_pos
  refine (List.Perm.append_left _ (List.perm_append_comm.trans hsg.symm)).trans ?_
  refine (List.Perm.append_left _
    (clusterSingletonsTogether_perm f habs hclone _)).trans ?_
  exact List.perm_append_comm.trans (flatMap_filter_partition f cs hpos).symm

theorem consolidatePasses_fst_gt (cs : List Cluster) :
    ∀ c ∈ (consolidatePasses cs).1, 1 < c.items.length := by
  unfold consolidatePasses
  refine pass2Aux_fst_gt _ _ ?_
  intro c hc
  rcases List.mem_append.mp hc with hc' | hc'
  · have := (List.mem_filter.mp hc').2
    simpa using this
  · have := (List.mem_filter.mp hc').2
    simpa using this

theorem consolidatePasses_snd_one (cs : List Cluster) :
    ∀ c ∈ (consolidatePasses cs).2, c.items.length = 1 := by
  unfold consolidatePasses
  intro c hc
  have := pass2Aux_snd_sub _ _ c hc
  have := (List.mem_filter.mp this).2
  simpa using this

/-- `consolidateSingletons` only redistributes members (generic form). -/
theorem consolidateSingletons_perm {α : Type} (f : Cluster → List α)
    (habs : ∀ s t, f (absorbIntoCluster s t) = f t ++ f s)
    (hclone : ∀ c, f (cloneCluster c) = f c)
    (hmisc : ∀ os, f (createMiscCluster os) = os.flatMap f)
    (cs : List Cluster) (cap : ℕ) (hpos : ∀ c ∈ cs, 0 < c.items.length) :
    List.Perm ((consolidateSingletons cs cap).flatMap f) (cs.flatMap f) := by
  simp only [consolidateSingletons]
  split
  · exact List.Perm.refl _
  · split
    · rename_i h0
      have h2 : (consolidatePasses cs).2 = [] := List.length_eq_zero.mp h0
      have h3 := consolidatePasses_perm f habs hclone cs hpos
      rw [h2] at h3
      simpa using h3
    · split
      · rw [List.flatMap_append]
        exact consolidatePasses_perm f habs hclone cs hpos
      · split
        · rw [List.flatMap_append]
          simp only [List.flatMap_cons, List.flatMap_nil, List.append_nil, hmisc]
          exact consolidatePasses_perm f habs hclone cs hpos
        · rw [List.flatMap_append]
          exact consolidatePasses_perm f habs hclone cs hpos

/-- Sum of the member counts of a list of singleton clusters. -/
theorem flatMap_items_length_of_one (l : List Cluster)
    (h : ∀ c ∈ l, c.items.length = 1) :
    (l.flatMap (fun c => c.items)).length = l.length := by
  induction l with
  | nil => rfl
  | cons c t ih =>
    simp only [List.flatMap_cons, List.length_append, List.length_cons,
      h c (List.mem_cons_self c t), ih (fun x hx => h x (List.mem_cons_of_mem c hx))]
    omega

/-- The consolidated list is always a block of strictly multi-member
clusters followed by a block of singletons. -/
theorem consolidateSingletons_shape (cs : List Cluster) (cap : ℕ)
    (hpos : ∀ c ∈ cs, 0 < c.items.length) :
    ∃ M S, consolidateSingletons cs cap = M ++ S ∧
      (∀ c ∈ M, 1 < c.items.length) ∧ (∀ c ∈ S, c.items.length = 1) := by
  simp only [consolidateSingletons]
  split
  · rename_i h0
    refine ⟨cs, [], by simp, ?_, by simp⟩
    intro c hc
    have hne : ¬ c.items.length = 1 := by
      intro h1
      have : c ∈ cs.filter (fun c => c.items.length = 1) := by
        rw [List.mem_filter]
        exact ⟨hc, by simpa using h1⟩
      rw [List.length_eq_zero.mp h0] at this
      cases this
    have := hpos c hc
    omega
  · split
    · exact ⟨(consolidatePasses cs).1, [], by simp, consolidatePasses_fst_gt cs, by simp⟩
    · split
      · exact ⟨(consolidatePasses cs).1, (consolidatePasses cs).2, rfl,
          consolidatePasses_fst_gt cs, consolidatePasses_snd_one cs⟩
      · split
        · rename_i hlen hcap hmin
          refine ⟨(consolidatePasses cs).1 ++ [createMiscCluster (consolidatePasses cs).2],
            [], by simp, ?_, by simp⟩
          intro c hc
          rcases List.mem_append.mp hc with hc' | hc'
          · exact consolidatePasses_fst_gt cs c hc'
          · rcases List.mem_singleton.mp hc' with rfl
            simp only [createMiscCluster]
            rw [flatMap_items_length_of_one _ (consolidatePasses_snd_one cs)]
            have := hmin
            unfold MIN_ORPHANS_FOR_MISC at this
            omega
        · exact ⟨(consolidatePasses cs).1, (consolidatePasses cs).2, rfl,
            consolidatePasses_fst_gt cs, consolidatePasses_snd_one cs⟩

/-! ## The agglomerative loop as a permutation of members -/

theorem flatMap_comp_map {α β γ : Type} (g : α → β) (f : β → List γ) (l : List α) :
    (l.map g).flatMap f = l.flatMap (fun x => f (g x)) := by
  induction l with
  | nil => rfl
  | cons a t ih => simp [ih]

theorem initialClusters_flatMap_indices (tvs : List TabVector) :
    (initialClusters tvs).flatMap (fun c => c.indices) = List.range tvs.length := by
  unfold initialClusters
  rw [flatMap_comp_map]
  simp only []
  rw [flatMap_pure_eq_map, List.enum_map_fst]

theorem initialClusters_flatMap_items (tvs : List TabVector) :
    (initialClusters tvs).flatMap (fun c => c.items) = tvs := by
  unfold initialClusters
  rw [flatMap_comp_map]
  simp only []
  rw [flatMap_pure_eq_map, List.enum_map_snd]

theorem initialClusters_items_pos (tvs : List TabVector) :
    ∀ c ∈ initialClusters tvs, 0 < c.items.length := by
  intro c hc
  obtain ⟨p, _, rfl⟩ := List.mem_map.mp hc
  simp

theorem mergeStep_perm {α : Type} (f : Cluster → List α)
    (hmerge : ∀ c1 c2, f (mergeClusters c1 c2) = f c1 ++ f c2)
    (cs : List Cluster) (i j : ℕ) (hij : i < j) (hj : j < cs.length) :
    List.Perm ((mergeStep cs i j).flatMap f) (cs.flatMap f) := by
  have h := (removeTwo_perm cs i j hij hj).flatMap_right f
  simp only [List.flatMap_cons] at h
  unfold mergeStep
  rw [List.flatMap_append]
  simp only [List.flatMap_cons, List.flatMap_nil, List.append_nil, hmerge]
  refine List.perm_append_comm.trans ?_
  rw [List.append_assoc]
  exact h.symm

theorem mergeStep_length (cs : List Cluster) (i j : ℕ) (hij : i < j)
    (hj : j < cs.length) : (mergeStep cs i j).length = cs.length - 1 := by
  have h := (removeTwo_perm cs i j hij hj).length_eq
  simp only [List.length_cons] at h
  simp only [mergeStep, List.length_append, List.length_cons, List.length_nil]
  omega

theorem agglomLoop_perm {α : Type} (f : Cluster → List α)
    (hmerge : ∀ c1 c2, f (mergeClusters c1 c2) = f c1 ++ f c2)
    (m : ℕ → ℕ → ℝ) (thr : ℝ) (target : ℕ) :
    ∀ (fuel : ℕ) (cs : List Cluster),
      List.Perm ((agglomLoop m thr target fuel cs).flatMap f) (cs.flatMap f) := by
  intro fuel
  induction fuel with
  | zero => intro cs; exact List.Perm.refl _
  | succ n ih =>
    intro cs
    rw [agglomLoop]
    split
    · exact List.Perm.refl _
    · split
      · exact List.Perm.refl _
      · rename_i heq
        rename_i i j s
        split
        · exact List.Perm.refl _
        · exact (ih _).trans (mergeStep_perm f hmerge cs i j
            (findBestMerge_some heq).1 (findBestMerge_some heq).2)

theorem mergeStep_items_pos (cs : List Cluster) (i j : ℕ) (hij : i < j)
    (hj : j < cs.length) (hpos : ∀ c ∈ cs, 0 < c.items.length) :
    ∀ c ∈ mergeStep cs i j, 0 < c.items.length := by
  intro c hc
  rcases List.mem_append.mp hc with hc' | hc'
  · have hperm := removeTwo_perm cs i j hij hj
    exact hpos c (hperm.mem_iff.mpr
      (List.mem_cons_of_mem _ (List.mem_cons_of_mem _ hc')))
  · rcases List.mem_singleton.mp hc' with rfl
    have hi : i < cs.length := lt_trans hij hj
    have hmi : cs.getD i default ∈ cs := by
      rw [List.getD_eq_getElem cs default hi]
      exact List.getElem_mem hi
    have := hpos _ hmi
    simp only [mergeClusters, List.length_append]
    omega

theorem agglomLoop_items_pos (m : ℕ → ℕ → ℝ) (thr : ℝ) (target : ℕ) :
    ∀ (fuel : ℕ) (cs : List Cluster), (∀ c ∈ cs, 0 < c.items.length) →
      ∀ c ∈ agglomLoop m thr target fuel cs, 0 < c.items.length := by
  intro fuel
  induction fuel with
  | zero => intro cs h; exact h
  | succ n ih =>
    intro cs h
    rw [agglomLoop]
    split
    · exact h
    · split
      · exact h
      · rename_i heq
        rename_i i j s
        split
        · exact h
        · exact ih _ (mergeStep_items_pos cs i j
            (findBestMerge_some heq).1 (findBestMerge_some heq).2 h)

/-! ## The metadata pass -/

theorem metadataAux_skip (nf : Cluster → Str) :
    ∀ (S : List Cluster) (i : ℕ), (∀ c ∈ S, c.items.length = 1) →
      metadataAux nf i S = [] := by
  intro S
  induction S with
  | nil => intro i _; rfl
  | cons c t ih =>
    intro i h
    rw [metadataAux, if_pos (h c (List.mem_cons_self c t))]
    exact ih (i + 1) (fun x hx => h x (List.mem_cons_of_mem c hx))

theorem metadataAux_length (nf : Cluster → Str) :
    ∀ (M S : List Cluster) (i : ℕ), (∀ c ∈ M, c.items.length ≠ 1) →
      (∀ c ∈ S, c.items.length = 1) →
      (metadataAux nf i (M ++ S)).length = M.length := by
  intro M
  induction M with
  | nil =>
    intro S i _ hS
    rw [List.nil_append, metadataAux_skip nf S i hS]
    rfl
  | cons c t ih =>
    intro S i hM hS
    rw [List.cons_append, metadataAux,
      if_neg (hM c (List.mem_cons_self c t))]
    simp only [List.length_cons]
    rw [ih S (i + 1) (fun x hx => hM x (List.mem_cons_of_mem c hx)) hS]

theorem metadataAux_color (nf : Cluster → Str) :
    ∀ (M S : List Cluster) (i : ℕ), (∀ c ∈ M, c.items.length ≠ 1) →
      (∀ c ∈ S, c.items.length = 1) →
      ∀ k, k < M.length →
        ((metadataAux nf i (M ++ S)).getD k default).color =
          clusterColors.getD ((i + k) % clusterColors.length) [] := by
  intro M
  induction M with
  | nil =>
    intro S i _ _ k hk
    simp at hk
  | cons c t ih =>
    intro S i hM hS k hk
    rw [List.cons_append, metadataAux, if_neg (hM c (List.mem_cons_self c t))]
    cases k with
    | zero => simp
    | succ k =>
      rw [List.getD_cons_succ]
      have := ih S (i + 1) (fun x hx => hM x (List.mem_cons_of_mem c hx)) hS k
        (by simp only [List.length_cons] at hk; omega)
      rw [this, show i + 1 + k = i + (k + 1) from by omega]

theorem metadataAux_tabIds (nf : Cluster → Str) :
    ∀ (cs : List Cluster) (i : ℕ),
      (metadataAux nf i cs).flatMap (fun r => r.tabIds) =
        (cs.filter (fun c => ¬ c.items.length = 1)).flatMap
          (fun c => c.items.map (fun it => it.tabId)) := by
  intro cs
  induction cs with
  | nil => intro i; rfl
  | cons c t ih =>
    intro i
    by_cases h1 : c.items.length = 1
    · have hf : List.filter (fun c => ¬ c.items.length = 1) (c :: t)
          = List.filter (fun c => ¬ c.items.length = 1) t := by
        rw [List.filter_cons, if_neg (by simpa using h1)]
      rw [metadataAux, if_pos h1, hf]
      exact ih (i + 1)
    · have hf : List.filter (fun c => ¬ c.items.length = 1) (c :: t)
          = c :: List.filter (fun c => ¬ c.items.length = 1) t := by
        rw [List.filter_cons, if_pos (by simpa using h1)]
      rw [metadataAux, if_neg h1, hf]
      simp only [List.flatMap_cons]
      rw [ih (i + 1)]

/-! ## Counting helpers -/

theorem countP_contains_zero {β : Type} (f : β → List ℕ) (a : ℕ) :
    ∀ (l : List β), List.count a (l.flatMap f) = 0 →
      l.countP (fun c => (f c).contains a) = 0 := by
  intro l
  induction l with
  | nil => intro _; rfl
  | cons c t ih =>
    intro h
    rw [List.flatMap_cons, List.count_append] at h
    rw [List.countP_cons]
    have hc : List.count a (f c) = 0 := by omega
    have ht : List.count a (t.flatMap f) = 0 := by omega
    rw [ih ht]
    have hmem : a ∉ f c := List.count_eq_zero.mp hc
    have hcont : ((f c).contains a) = false := by
      simp [List.contains, List.elem_iff, hmem]
    rw [hcont]
    simp

theorem countP_contains_one {β : Type} (f : β → List ℕ) (a : ℕ) :
    ∀ (l : List β), List.count a (l.flatMap f) = 1 →
      l.countP (fun c => (f c).contains a) = 1 := by
  intro l
  induction l with
  | nil => intro h; cases h
  | cons c t ih =>
    intro h
    rw [List.flatMap_cons, List.count_append] at h
    rw [List.countP_cons]
    by_cases hc : List.count a (f c) = 0
    · have ht : List.count a (t.flatMap f) = 1 := by omega
      rw [ih ht]
      have hmem : a ∉ f c := List.count_eq_zero.mp hc
      have hcont : ((f c).contains a) = false := by
        simp [List.contains, List.elem_iff, hmem]
      rw [hcont]
      simp
    · have ht : List.count a (t.flatMap f) = 0 := by omega
      rw [countP_contains_zero f a t ht]
      have hmem : a ∈ f c := by
        by_contra hmem
        exact hc (List.count_eq_zero.mpr hmem)
      have hcont : ((f c).contains a) = true := by
        simp [List.contains, List.elem_iff, hmem]
      rw [hcont]
      simp

theorem countP_contains_le_one {β : Type} (f : β → List ℕ) (a : ℕ) :
    ∀ (l : List β), (l.flatMap f).Nodup →
      l.countP (fun c => (f c).contains a) ≤ 1 := by
  intro l
  induction l with
  | nil => intro _; simp
  | cons c t ih =>
    intro h
    rw [List.flatMap_cons, List.nodup_append] at h
    obtain ⟨h1, h2, h3⟩ := h
    rw [List.countP_cons]
    by_cases hmem : a ∈ f c
    · have hnot : a ∉ t.flatMap f := fun hin => h3 hmem hin
      have hz : List.count a (t.flatMap f) = 0 := List.count_eq_zero.mpr hnot
      rw [countP_contains_zero f a t hz]
      have hcont : ((f c).contains a) = true := by
        simp [List.contains, List.elem_iff, hmem]
      rw [hcont]
      simp
    · have hcont : ((f c).contains a) = false := by
        simp [List.contains, List.elem_iff, hmem]
      rw [hcont]
      have := ih h2
      simp only [Bool.false_eq_true, if_false]
      omega

theorem flatMap_filter_sublist {α β : Type} (p : α → Bool) (f : α → List β)
    (l : List α) : ((l.filter p).flatMap f).Sublist (l.flatMap f) := by
  induction l with
  | nil => simp
  | cons c t ih =>
    rw [List.filter_cons]
    by_cases hp : p c = true
    · rw [if_pos hp, List.flatMap_cons, List.flatMap_cons]
      exact ih.append_left (f c)
    · rw [if_neg hp, List.flatMap_cons]
      exact ih.trans (List.sublist_append_right _ _)

theorem flatMap_map_inner {α β γ : Type} (f : α → List β) (g : β → γ)
    (l : List α) : l.flatMap (fun x => (f x).map g) = (l.flatMap f).map g := by
  induction l with
  | nil => rfl
  | cons c t ih => simp [ih]

/-! ## The pipeline stages, named (used by C4 and C10) -/

/-- The capacity the pipeline computes from the screen width. -/
def pipelineCapacity (tvs : List TabVector) (sw : ℕ) : ℕ :=
  calculateGroupCapacity sw tvs.length

/-- The cluster list the agglomerative stage hands to consolidation. -/
def pipelineClusters (tvs : List TabVector) (sw : ℕ) : List Cluster :=
  agglomerativeClustering tvs (buildSimilarityMatrix tvs) (pipelineCapacity tvs sw)

/-- The multi-item clusters surviving consolidation passes 1 and 2. -/
def pipelineMulti (tvs : List TabVector) (sw : ℕ) : List Cluster :=
  (consolidatePasses (pipelineClusters tvs sw)).1

/-- The true orphans left after consolidation passes 1 and 2. -/
def pipelineOrphans (tvs : List TabVector) (sw : ℕ) : List Cluster :=
  (consolidatePasses (pipelineClusters tvs sw)).2

theorem initialClusters_length (tvs : List TabVector) :
    (initialClusters tvs).length = tvs.length := by
  unfold initialClusters
  rw [List.length_map, List.enum_length]

theorem clusterTabs_eq (tvs : List TabVector) (sw : ℕ) (nf : Cluster → Str)
    (h : ¬ tvs.length ≤ 2) :
    clusterTabs tvs sw nf = generateClusterMetadata nf
      (consolidateSingletons (pipelineClusters tvs sw) (pipelineCapacity tvs sw)) := by
  unfold clusterTabs pipelineClusters pipelineCapacity
  rw [if_neg h]

theorem clusterTabs_eq_nil (tvs : List TabVector) (sw : ℕ) (nf : Cluster → Str)
    (h : tvs.length ≤ 2) : clusterTabs tvs sw nf = [] := by
  unfold clusterTabs
  rw [if_pos h]

theorem agglom_flatMap_indices_perm (tvs : List TabVector) (m : ℕ → ℕ → ℝ)
    (target : ℕ) :
    List.Perm
      ((agglomerativeClustering tvs m target).flatMap (fun c => c.indices))
      (List.range tvs.length) := by
  unfold agglomerativeClustering
  refine (agglomLoop_perm (fun c => c.indices) (fun _ _ => rfl) _ _ _ _ _).trans ?_
  rw [initialClusters_flatMap_indices]

theorem agglom_flatMap_items_perm (tvs : List TabVector) (m : ℕ → ℕ → ℝ)
    (target : ℕ) :
    List.Perm ((agglomerativeClustering tvs m target).flatMap (fun c => c.items))
      tvs := by
  unfold agglomerativeClustering
  refine (agglomLoop_perm (fun c => c.items) (fun _ _ => rfl) _ _ _ _ _).trans ?_
  rw [initialClusters_flatMap_items]

theorem agglom_items_pos (tvs : List TabVector) (m : ℕ → ℕ → ℝ) (target : ℕ) :
    ∀ c ∈ agglomerativeClustering tvs m target, 0 < c.items.length := by
  unfold agglomerativeClustering
  exact agglomLoop_items_pos m _ target tvs.length (initialClusters tvs)
    (initialClusters_items_pos tvs)

theorem pipelineClusters_items_pos (tvs : List TabVector) (sw : ℕ) :
    ∀ c ∈ pipelineClusters tvs sw, 0 < c.items.length := by
  unfold pipelineClusters
  exact agglom_items_pos tvs (buildSimilarityMatrix tvs) (pipelineCapacity tvs sw)


/-! ## C10: consolidation keeps a partition of the item indices -/

/-- C10: for every input item list (of length `n`), every similarity matrix
and every capacity, the cluster list `consolidateSingletons` returns for the
agglomerative stage's output is a partition of the indices `0..n-1`: the
concatenated index lists are a permutation of `range n`, and every index
belongs to exactly one cluster — none of the three consolidation passes
drops or duplicates an index. -/
theorem consolidateSingletons_partition (tvs : List TabVector) (m : ℕ → ℕ → ℝ)
    (target cap : ℕ) :
    List.Perm
      ((consolidateSingletons (agglomerativeClustering tvs m target) cap).flatMap
        (fun c => c.indices))
      (List.range tvs.length) ∧
    (∀ i, i < tvs.length →
      (consolidateSingletons (agglomerativeClustering tvs m target) cap).countP
        (fun c => c.indices.contains i) = 1) := by
  have hpos := agglom_items_pos tvs m target
  have hperm := (consolidateSingletons_perm (fun c => c.indices) (fun _ _ => rfl)
    (fun _ => rfl) (fun _ => rfl) _ cap hpos).trans
    (agglom_flatMap_indices_perm tvs m target)
  refine ⟨hperm, ?_⟩
  intro i hi
  have hcount : List.count i
      ((consolidateSingletons (agglomerativeClustering tvs m target) cap).flatMap
        (fun c => c.indices)) = 1 := by
    rw [hperm.count_eq]
    exact List.count_eq_one_of_mem (List.nodup_range _) (List.mem_range.mpr hi)
  exact countP_contains_one _ i _ hcount

/-! ## C1: no item identifier lands in two output entries -/

/-- C1: for every input item list with pairwise-distinct identifiers and
every run of the pipeline, no item identifier appears in the `tabIds` of
more than one entry of the final result list.  (Distinctness is what makes
the ids identifiers; the underlying index partition is claim C10.) -/
theorem clusterTabs_tabIds_disjoint (tvs : List TabVector) (sw : ℕ)
    (nf : Cluster → Str) (hids : (tvs.map (fun tv => tv.tabId)).Nodup) :
    ∀ tid, (clusterTabs tvs sw nf).countP (fun r => r.tabIds.contains tid) ≤ 1 := by
  intro tid
  by_cases hsmall : tvs.length ≤ 2
  · rw [clusterTabs_eq_nil tvs sw nf hsmall]
    simp
  · rw [clusterTabs_eq tvs sw nf hsmall]
    set cs2 := consolidateSingletons (pipelineClusters tvs sw)
      (pipelineCapacity tvs sw) with hcs2
    have hpos := pipelineClusters_items_pos tvs sw
    have hitems : List.Perm (cs2.flatMap (fun c => c.items)) tvs := by
      refine (consolidateSingletons_perm (fun c => c.items) (fun _ _ => rfl)
        (fun _ => rfl) (fun _ => rfl) _ _ hpos).trans ?_
      unfold pipelineClusters
      exact agglom_flatMap_items_perm tvs (buildSimilarityMatrix tvs)
        (pipelineCapacity tvs sw)
    have hbig : ((cs2.flatMap (fun c => c.items)).map
        (fun it => it.tabId)).Nodup :=
      ((hitems.map (fun it => it.tabId)).nodup_iff).mpr hids
    refine countP_contains_le_one (fun r : ClusterResult => r.tabIds) tid _ ?_
    rw [show generateClusterMetadata nf cs2 = metadataAux nf 0 cs2 from rfl,
      metadataAux_tabIds nf cs2 0, flatMap_map_inner]
    exact List.Sublist.nodup
      ((flatMap_filter_sublist _ (fun c => c.items) cs2).map (fun it => it.tabId))
      hbig

/-! ## C9: colors are assigned round-robin by output position -/

/-- C9: each entry of the final output list gets its color from the fixed
9-color palette at the index equal to that entry's position in the output
list, modulo the palette size (deterministically in the output order; the
consolidated cluster list is always multi-member clusters first, so skipped
singletons never shift the palette index). -/
theorem clusterTabs_color_round_robin (tvs : List TabVector) (sw : ℕ)
    (nf : Cluster → Str) :
    ∀ k, k < (clusterTabs tvs sw nf).length →
      ((clusterTabs tvs sw nf).getD k default).color =
        clusterColors.getD (k % clusterColors.length) [] := by
  intro k hk
  by_cases hsmall : tvs.length ≤ 2
  · rw [clusterTabs_eq_nil tvs sw nf hsmall] at hk
    simp at hk
  · rw [clusterTabs_eq tvs sw nf hsmall] at hk ⊢
    obtain ⟨M, S, hMS, hM, hS⟩ := consolidateSingletons_shape
      (pipelineClusters tvs sw) (pipelineCapacity tvs sw)
      (pipelineClusters_items_pos tvs sw)
    have hM' : ∀ c ∈ M, c.items.length ≠ 1 := by
      intro c hc
      have := hM c hc
      omega
    rw [show generateClusterMetadata nf
        (consolidateSingletons (pipelineClusters tvs sw) (pipelineCapacity tvs sw)) =
        metadataAux nf 0
        (consolidateSingletons (pipelineClusters tvs sw) (pipelineCapacity tvs sw))
      from rfl, hMS] at hk ⊢
    rw [metadataAux_length nf M S 0 hM' hS] at hk
    have := metadataAux_color nf M S 0 hM' hS k hk
    simpa using this

/-! ## C2: merge discipline of the agglomerative loop -/

theorem agglomLoopTraced_fst (m : ℕ → ℕ → ℝ) (thr : ℝ) (target : ℕ) :
    ∀ (fuel : ℕ) (cs : List Cluster),
      (agglomLoopTraced m thr target fuel cs).1 = agglomLoop m thr target fuel cs := by
  intro fuel
  induction fuel with
  | zero => intro cs; rfl
  | succ n ih =>
    intro cs
    rw [agglomLoopTraced, agglomLoop]
    split
    · rfl
    · split
      · rfl
      · split
        · rfl
        · exact ih _

theorem agglomLoopTraced_trace (m : ℕ → ℕ → ℝ) (thr : ℝ) (target : ℕ) :
    ∀ (fuel : ℕ) (cs : List Cluster),
      ∀ p ∈ (agglomLoopTraced m thr target fuel cs).2,
        target < p.1 ∧ thr ≤ p.2 := by
  intro fuel
  induction fuel with
  | zero => intro cs p hp; cases hp
  | succ n ih =>
    intro cs p hp
    rw [agglomLoopTraced] at hp
    revert hp
    split
    · intro hp; cases hp
    · split
      · intro hp; cases hp
      · split
        · intro hp; cases hp
        · rename_i hgt heq hth
          intro hp
          rcases List.mem_cons.mp hp with rfl | hp'
          · refine ⟨by omega, le_of_not_lt hth⟩
          · exact ih _ p hp'

theorem agglomLoop_final (m : ℕ → ℕ → ℝ) (thr : ℝ) (target : ℕ) :
    ∀ (fuel : ℕ) (cs : List Cluster), cs.length ≤ fuel →
      (agglomLoop m thr target fuel cs).length ≤ target ∨
      ∀ i j s, findBestMerge (agglomLoop m thr target fuel cs) m = some (i, j, s) →
        s < thr := by
  intro fuel
  induction fuel with
  | zero =>
    intro cs hcs
    left
    simp only [agglomLoop]
    omega
  | succ n ih =>
    intro cs hcs
    rw [agglomLoop]
    split
    · rename_i hle
      exact Or.inl hle
    · split
      · rename_i heq
        right
        intro i j s h
        rw [heq] at h
        cases h
      · rename_i heq
        rename_i i j s
        split
        · rename_i hlt
          right
          intro i' j' s' h'
          rw [heq] at h'
          cases h'
          exact hlt
        · refine ih _ ?_
          rw [mergeStep_length cs i j (findBestMerge_some heq).1
            (findBestMerge_some heq).2]
          omega

/-- C2: in the agglomerative loop, every merge actually performed happens
while the cluster count still exceeds the target and has best-merge
similarity at least the adaptive threshold
`base * max 0.85 (1 - (n - 10) * 0.01)`; and the loop's final state is
terminal — either the count is within target, or the best available merge
(if any) falls below the threshold, in which case the loop stopped
immediately without forcing it. -/
theorem agglomerative_merge_discipline (tvs : List TabVector) (m : ℕ → ℕ → ℝ)
    (target : ℕ) :
    (agglomerativeClustering tvs m target =
      (agglomLoopTraced m (computeAdaptiveThreshold tvs.length target) target
        tvs.length (initialClusters tvs)).1) ∧
    (∀ p ∈ agglomMergeTrace tvs m target,
      target < p.1 ∧ computeAdaptiveThreshold tvs.length target ≤ p.2) ∧
    ((agglomerativeClustering tvs m target).length ≤ target ∨
      ∀ i j s, findBestMerge (agglomerativeClustering tvs m target) m = some (i, j, s) →
        s < computeAdaptiveThreshold tvs.length target) ∧
    computeAdaptiveThreshold tvs.length target =
      CONTENT_SIMILARITY_THRESHOLD * max 0.85 (1 - ((tvs.length : ℝ) - 10) * 0.01) := by
  refine ⟨?_, ?_, ?_, rfl⟩
  · exact (agglomLoopTraced_fst _ _ _ _ _).symm
  · exact agglomLoopTraced_trace _ _ _ _ _
  · exact agglomLoop_final _ _ _ _ _ (by rw [initialClusters_length])

/-! ## C4 (amended): how consolidation relates to the capacity -/

/-- C4 amended: whenever the number of true orphans after consolidation
passes 1 and 2 is at least `MIN_ORPHANS_FOR_MISC`, the number of entries in
the final output is at most `max capacity (M + 1)`, where `M` is the number
of multi-item clusters after pass 2; in particular the capacity bound of the
original claim holds when additionally `M < capacity`.  (The original,
unconditional capacity bound is refuted by `capacity_claim_counterexample`:
the multi-item clusters alone can exceed the capacity after an early
threshold stop.) -/
theorem consolidate_capacity_amended (tvs : List TabVector) (sw : ℕ)
    (nf : Cluster → Str)
    (hmin : MIN_ORPHANS_FOR_MISC ≤ (pipelineOrphans tvs sw).length) :
    (clusterTabs tvs sw nf).length ≤
      max (pipelineCapacity tvs sw) ((pipelineMulti tvs sw).length + 1) ∧
    ((pipelineMulti tvs sw).length < pipelineCapacity tvs sw →
      (clusterTabs tvs sw nf).length ≤ pipelineCapacity tvs sw) := by
  by_cases hsmall : tvs.length ≤ 2
  · rw [clusterTabs_eq_nil tvs sw nf hsmall]
    exact ⟨by simp, fun _ => by simp⟩
  · rw [clusterTabs_eq tvs sw nf hsmall]
    have hMgt := consolidatePasses_fst_gt (pipelineClusters tvs sw)
    have hSone := consolidatePasses_snd_one (pipelineClusters tvs sw)
    have hMne : ∀ c ∈ (consolidatePasses (pipelineClusters tvs sw)).1,
        c.items.length ≠ 1 := by
      intro c hc
      have := hMgt c hc
      omega
    have hmain : (generateClusterMetadata nf
        (consolidateSingletons (pipelineClusters tvs sw) (pipelineCapacity tvs sw))).length ≤
          max (pipelineCapacity tvs sw) ((pipelineMulti tvs sw).length + 1) ∧
        ((pipelineMulti tvs sw).length < pipelineCapacity tvs sw →
          (generateClusterMetadata nf
            (consolidateSingletons (pipelineClusters tvs sw)
              (pipelineCapacity tvs sw))).length ≤ pipelineCapacity tvs sw) := by
      simp only [consolidateSingletons]
      split
      · rename_i h0
        exfalso
        have hfil := List.length_eq_zero.mp h0
        have : (consolidatePasses (pipelineClusters tvs sw)).2 = [] := by
          unfold consolidatePasses
          rw [hfil]
          rfl
        unfold pipelineOrphans at hmin
        rw [this] at hmin
        unfold MIN_ORPHANS_FOR_MISC at hmin
        simp at hmin
      · split
        · rename_i h0
          exfalso
          unfold pipelineOrphans at hmin
          rw [h0] at hmin
          unfold MIN_ORPHANS_FOR_MISC at hmin
          omega
        · split
          · rename_i hcap
            unfold generateClusterMetadata
            rw [metadataAux_length nf _ _ 0 hMne hSone]
            constructor
            · refine le_trans ?_ (le_max_left _ _)
              unfold pipelineOrphans at hmin
              unfold MIN_ORPHANS_FOR_MISC at hmin
              omega
            · intro _
              omega
          · split
            · rename_i hcap hmisc
              have hMne2 : ∀ c ∈ (consolidatePasses (pipelineClusters tvs sw)).1 ++
                  [createMiscCluster (consolidatePasses (pipelineClusters tvs sw)).2],
                  c.items.length ≠ 1 := by
                intro c hc
                rcases List.mem_append.mp hc with hc' | hc'
                · exact hMne c hc'
                · rcases List.mem_singleton.mp hc' with rfl
                  simp only [createMiscCluster]
                  rw [flatMap_items_length_of_one _ hSone]
                  unfold MIN_ORPHANS_FOR_MISC at hmisc
                  omega
              unfold generateClusterMetadata
              rw [show (consolidatePasses (pipelineClusters tvs sw)).1 ++
                  [createMiscCluster (consolidatePasses (pipelineClusters tvs sw)).2] =
                  ((consolidatePasses (pipelineClusters tvs sw)).1 ++
                  [createMiscCluster (consolidatePasses (pipelineClusters tvs sw)).2]) ++
                  ([] : List Cluster) from (List.append_nil _).symm,
                metadataAux_length nf _ _ 0 hMne2 (by intro c hc; cases hc)]
              simp only [List.length_append, List.length_cons, List.length_nil]
              constructor
              · refine le_trans ?_ (le_max_right _ _)
                unfold pipelineMulti
                omega
              · intro hlt
                unfold pipelineMulti at hlt
                unfold pipelineCapacity at hlt ⊢
                omega
            · rename_i hcap hmisc
              exfalso
              unfold pipelineOrphans at hmin
              exact hmisc hmin
    exact hmain

/-! ## Concrete run evaluation -/

theorem sqrt_four : Real.sqrt 4 = 2 := by
  rw [show (4 : ℝ) = 2 ^ 2 by norm_num, Real.sqrt_sq (by norm_num)]

theorem sqrt_nine : Real.sqrt 9 = 3 := by
  rw [show (9 : ℝ) = 3 ^ 2 by norm_num, Real.sqrt_sq (by norm_num)]

theorem agglomLoop_step (m : ℕ → ℕ → ℝ) (thr : ℝ) (target fuel : ℕ)
    (cs : List Cluster) (i j : ℕ) (s : ℝ)
    (hgt : ¬ cs.length ≤ target) (heq : findBestMerge cs m = some (i, j, s))
    (hth : ¬ s < thr) :
    agglomLoop m thr target (fuel + 1) cs =
      agglomLoop m thr target fuel (mergeStep cs i j) := by
  rw [agglomLoop, if_neg hgt, heq]
  show (if s < thr then cs else agglomLoop m thr target fuel (mergeStep cs i j)) = _
  rw [if_neg hth]

theorem agglomLoop_stop_target (m : ℕ → ℕ → ℝ) (thr : ℝ) (target fuel : ℕ)
    (cs : List Cluster) (hle : cs.length ≤ target) :
    agglomLoop m thr target (fuel + 1) cs = cs := by
  rw [agglomLoop, if_pos hle]

theorem agglomLoop_stop_thr (m : ℕ → ℕ → ℝ) (thr : ℝ) (target fuel : ℕ)
    (cs : List Cluster) (i j : ℕ) (s : ℝ)
    (hgt : ¬ cs.length ≤ target) (heq : findBestMerge cs m = some (i, j, s))
    (hth : s < thr) :
    agglomLoop m thr target (fuel + 1) cs = cs := by
  rw [agglomLoop, if_neg hgt, heq]
  show (if s < thr then cs else agglomLoop m thr target fuel (mergeStep cs i j)) = _
  rw [if_pos hth]

/-! ### A 3-item run: three identical embeddings, distinct domains -/

def tv3a : TabVector := ⟨10, ['a'], ['a'], [], [1]⟩
def tv3b : TabVector := ⟨11, ['b'], ['b'], [], [1]⟩
def tv3c : TabVector := ⟨12, ['c'], ['c'], [], [1]⟩
def tvs3 : List TabVector := [tv3a, tv3b, tv3c]

/-- Oracle naming function used by the concrete runs. -/
def nfG : Cluster → Str := fun _ => ['G']

def ic3a : Cluster := ⟨[0], [tv3a], [[1]], [['a']], [1], false⟩
def ic3b : Cluster := ⟨[1], [tv3b], [[1]], [['b']], [1], false⟩
def ic3c : Cluster := ⟨[2], [tv3c], [[1]], [['c']], [1], false⟩
def mc3 : Cluster := ⟨[0, 1], [tv3a, tv3b], [[1], [1]], [['a'], ['b']], [1], false⟩
def fc3 : Cluster :=
  ⟨[0, 1, 2], [tv3a, tv3b, tv3c], [[1], [1], [1]], [['a'], ['b'], ['c']], [1], false⟩

theorem hrep1 : List.replicate 1 (0 : ℝ) = [0] := rfl

theorem run3_init : initialClusters tvs3 = [ic3a, ic3b, ic3c] := by
  norm_num [initialClusters, tvs3, List.enum, List.enumFrom, ic3a, ic3b, ic3c,
    tv3a, tv3b, tv3c]

theorem pairs3 : pairsUpTo 3 = [(0, 1), (0, 2), (1, 2)] := by decide

theorem cps3_ab : computePairwiseSimilarity tv3a tv3b = 1 := by
  norm_num +decide [computePairwiseSimilarity, cosineSimilarity, tv3a, tv3b,
    DOMAIN_AFFINITY_BOOST, URL_PATH_BOOST]

theorem cps3_ac : computePairwiseSimilarity tv3a tv3c = 1 := by
  norm_num +decide [computePairwiseSimilarity, cosineSimilarity, tv3a, tv3c,
    DOMAIN_AFFINITY_BOOST, URL_PATH_BOOST]

theorem cps3_bc : computePairwiseSimilarity tv3b tv3c = 1 := by
  norm_num +decide [computePairwiseSimilarity, cosineSimilarity, tv3b, tv3c,
    DOMAIN_AFFINITY_BOOST, URL_PATH_BOOST]

theorem m3_01 : buildSimilarityMatrix tvs3 0 1 = 1 := by
  simp only [buildSimilarityMatrix]
  rw [if_pos (by norm_num : (0 : ℕ) < 1),
    show tvs3.getD 0 default = tv3a from rfl,
    show tvs3.getD 1 default = tv3b from rfl]
  exact cps3_ab

theorem m3_02 : buildSimilarityMatrix tvs3 0 2 = 1 := by
  simp only [buildSimilarityMatrix]
  rw [if_pos (by norm_num : (0 : ℕ) < 2),
    show tvs3.getD 0 default = tv3a from rfl,
    show tvs3.getD 2 default = tv3c from rfl]
  exact cps3_ac

theorem m3_12 : buildSimilarityMatrix tvs3 1 2 = 1 := by
  simp only [buildSimilarityMatrix]
  rw [if_pos (by norm_num : (1 : ℕ) < 2),
    show tvs3.getD 1 default = tv3b from rfl,
    show tvs3.getD 2 default = tv3c from rfl]
  exact cps3_bc

theorem run3_fbm :
    findBestMerge [ic3a, ic3b, ic3c] (buildSimilarityMatrix tvs3) = some (0, 1, 1) := by
  have g0 : ([ic3a, ic3b, ic3c] : List Cluster).getD 0 default = ic3a := rfl
  have g1 : ([ic3a, ic3b, ic3c] : List Cluster).getD 1 default = ic3b := rfl
  have g2 : ([ic3a, ic3b, ic3c] : List Cluster).getD 2 default = ic3c := rfl
  have a01 : avgLinkage (buildSimilarityMatrix tvs3) ic3a ic3b = 1 := by
    simp only [avgLinkage, ic3a, ic3b]
    norm_num [m3_01]
  have a02 : avgLinkage (buildSimilarityMatrix tvs3) ic3a ic3c = 1 := by
    simp only [avgLinkage, ic3a, ic3c]
    norm_num [m3_02]
  have a12 : avgLinkage (buildSimilarityMatrix tvs3) ic3b ic3c = 1 := by
    simp only [avgLinkage, ic3b, ic3c]
    norm_num [m3_12]
  rw [findBestMerge, show ([ic3a, ic3b, ic3c] : List Cluster).length = 3 from rfl,
    pairs3]
  simp only [fbmAux, g0, g1, g2, a01, a02, a12]
  norm_num

theorem cent2 : computeCentroid [[(1 : ℝ)], [1]] = [1] := by
  simp only [computeCentroid]
  norm_num [sumVecs, hrep1, sqrt_four]

theorem cent3 : computeCentroid [[(1 : ℝ)], [1], [1]] = [1] := by
  simp only [computeCentroid]
  norm_num [sumVecs, hrep1, sqrt_nine]

theorem run3_merge : mergeStep [ic3a, ic3b, ic3c] 0 1 = [ic3c, mc3] := by
  have g0 : ([ic3a, ic3b, ic3c] : List Cluster).getD 0 default = ic3a := rfl
  have g1 : ([ic3a, ic3b, ic3c] : List Cluster).getD 1 default = ic3b := rfl
  have hrt : removeTwo [ic3a, ic3b, ic3c] 0 1 = [ic3c] := by
    simp [removeTwo, removeTwoAux]
  have hdom : dedupFirst [['a'], ['b']] = [['a'], ['b']] := by decide
  rw [mergeStep, hrt, g0, g1, mergeClusters]
  simp only [ic3a, ic3b]
  rw [show ([[(1 : ℝ)]] ++ [[1]] : List Vec) = [[1], [1]] from rfl, cent2]
  norm_num [mc3, hdom]

theorem run3_thr_le : ¬ ((1 : ℝ) < computeAdaptiveThreshold 3 2) := by
  norm_num [computeAdaptiveThreshold, CONTENT_SIMILARITY_THRESHOLD, max_def]

theorem run3_agglom :
    agglomerativeClustering tvs3 (buildSimilarityMatrix tvs3) 2 = [ic3c, mc3] := by
  show agglomLoop (buildSimilarityMatrix tvs3)
    (computeAdaptiveThreshold tvs3.length 2) 2 tvs3.length (initialClusters tvs3) =
    [ic3c, mc3]
  rw [show tvs3.length = 3 from rfl, run3_init]
  have hs1 := agglomLoop_step (buildSimilarityMatrix tvs3)
    (computeAdaptiveThreshold 3 2) 2 2 [ic3a, ic3b, ic3c] 0 1 1
    (by norm_num) run3_fbm run3_thr_le
  rw [run3_merge] at hs1
  rw [hs1]
  exact agglomLoop_stop_target _ _ _ _ _ (by norm_num)

theorem run3_absorb : absorbIntoCluster ic3c mc3 = fc3 := by
  have hdom : ([['c']] : List Str).foldl
      (fun acc d => if acc.contains d then acc else acc ++ [d]) [['a'], ['b']] =
      [['a'], ['b'], ['c']] := by decide
  rw [absorbIntoCluster]
  simp only [ic3c, mc3]
  rw [show ([[(1 : ℝ)], [1]] ++ [[1]] : List Vec) = [[1], [1], [1]] from rfl, cent3]
  norm_num [fc3, hdom]
  decide

theorem run3_fcc : findClosestCluster ic3c [mc3] = (some 0, 1) := by
  rw [findClosestCluster]
  have hcos : cosineSimilarity ic3c.centroid mc3.centroid = 1 := by
    norm_num [cosineSimilarity, ic3c, mc3]
  simp only [bestScanAux, hcos]
  norm_num

theorem run3_passes : consolidatePasses [ic3c, mc3] = ([fc3], []) := by
  have hsing : ([ic3c, mc3] : List Cluster).filter
      (fun c => c.items.length = 1) = [ic3c] := by
    simp [List.filter_cons, ic3c, mc3]
  have hmulti : ([ic3c, mc3] : List Cluster).filter
      (fun c => 1 < c.items.length) = [mc3] := by
    simp [List.filter_cons, ic3c, mc3]
  have hsg : clusterSingletonsTogether [ic3c] = [ic3c] := by
    rw [clusterSingletonsTogether, if_pos (by norm_num)]
  simp only [consolidatePasses, hsing, hmulti, hsg]
  have hnm : ([ic3c] : List Cluster).filter (fun c => 1 < c.items.length) = [] := by
    simp [List.filter_cons, ic3c]
  have hor : ([ic3c] : List Cluster).filter (fun c => c.items.length = 1) = [ic3c] := by
    simp [List.filter_cons, ic3c]
  rw [hnm, hor, List.append_nil, pass2Aux, run3_fcc]
  dsimp only
  rw [if_pos (by norm_num [SINGLETON_ABSORPTION_THRESHOLD])]
  rw [show ([mc3] : List Cluster).getD 0 default = mc3 from rfl, run3_absorb]
  rfl

theorem run3_consolidate : consolidateSingletons [ic3c, mc3] 2 = [fc3] := by
  simp only [consolidateSingletons, run3_passes]
  have hsing : ([ic3c, mc3] : List Cluster).filter
      (fun c => c.items.length = 1) = [ic3c] := by
    simp [List.filter_cons, ic3c, mc3]
  rw [hsing]
  norm_num

theorem run3_eval : clusterTabs tvs3 1920 nfG =
    [⟨['G'], "blue".toList, [10, 11, 12]⟩] := by
  rw [clusterTabs_eq tvs3 1920 nfG (by norm_num [tvs3])]
  have hcap : pipelineCapacity tvs3 1920 = 2 := rfl
  rw [show pipelineClusters tvs3 1920 = agglomerativeClustering tvs3
    (buildSimilarityMatrix tvs3) (pipelineCapacity tvs3 1920) from rfl, hcap,
    run3_agglom, run3_consolidate]
  norm_num +decide [generateClusterMetadata, metadataAux, fc3, nfG, clusterColors,
    tv3a, tv3b, tv3c]

/-! ### A 7-item run: two tight pairs and three mutually orthogonal items,
screen width 200 (capacity 2) — the capacity-claim counterexample input -/

def tv7a : TabVector := ⟨20, ['a'], ['a'], [], [1, 0, 0, 0, 0]⟩
def tv7b : TabVector := ⟨21, ['b'], ['b'], [], [1, 0, 0, 0, 0]⟩
def tv7c : TabVector := ⟨22, ['c'], ['c'], [], [0, 1, 0, 0, 0]⟩
def tv7d : TabVector := ⟨23, ['d'], ['d'], [], [0, 1, 0, 0, 0]⟩
def tv7e : TabVector := ⟨24, ['e'], ['e'], [], [0, 0, 1, 0, 0]⟩
def tv7f : TabVector := ⟨25, ['f'], ['f'], [], [0, 0, 0, 1, 0]⟩
def tv7g : TabVector := ⟨26, ['g'], ['g'], [], [0, 0, 0, 0, 1]⟩

def tvs7 : List TabVector := [tv7a, tv7b, tv7c, tv7d, tv7e, tv7f, tv7g]

def ic7a : Cluster := ⟨[0], [tv7a], [[1, 0, 0, 0, 0]], [['a']], [1, 0, 0, 0, 0], false⟩
def ic7b : Cluster := ⟨[1], [tv7b], [[1, 0, 0, 0, 0]], [['b']], [1, 0, 0, 0, 0], false⟩
def ic7c : Cluster := ⟨[2], [tv7c], [[0, 1, 0, 0, 0]], [['c']], [0, 1, 0, 0, 0], false⟩
def ic7d : Cluster := ⟨[3], [tv7d], [[0, 1, 0, 0, 0]], [['d']], [0, 1, 0, 0, 0], false⟩
def ic7e : Cluster := ⟨[4], [tv7e], [[0, 0, 1, 0, 0]], [['e']], [0, 0, 1, 0, 0], false⟩
def ic7f : Cluster := ⟨[5], [tv7f], [[0, 0, 0, 1, 0]], [['f']], [0, 0, 0, 1, 0], false⟩
def ic7g : Cluster := ⟨[6], [tv7g], [[0, 0, 0, 0, 1]], [['g']], [0, 0, 0, 0, 1], false⟩

def mab7 : Cluster := ⟨[0, 1], [tv7a, tv7b], [[1, 0, 0, 0, 0], [1, 0, 0, 0, 0]],
  [['a'], ['b']], [1, 0, 0, 0, 0], false⟩

def mcd7 : Cluster := ⟨[2, 3], [tv7c, tv7d], [[0, 1, 0, 0, 0], [0, 1, 0, 0, 0]],
  [['c'], ['d']], [0, 1, 0, 0, 0], false⟩

theorem hrep5 : List.replicate 5 (0 : ℝ) = [0, 0, 0, 0, 0] := rfl

theorem cps7_0_1 : computePairwiseSimilarity tv7a tv7b = 1 := by
  norm_num +decide [computePairwiseSimilarity, cosineSimilarity, tv7a, tv7b,
    DOMAIN_AFFINITY_BOOST, URL_PATH_BOOST]

theorem cps7_0_2 : computePairwiseSimilarity tv7a tv7c = 0 := by
  norm_num +decide [computePairwiseSimilarity, cosineSimilarity, tv7a, tv7c,
    DOMAIN_AFFINITY_BOOST, URL_PATH_BOOST]

theorem cps7_0_3 : computePairwiseSimilarity tv7a tv7d = 0 := by
  norm_num +decide [computePairwiseSimilarity, cosineSimilarity, tv7a, tv7d,
    DOMAIN_AFFINITY_BOOST, URL_PATH_BOOST]

theorem cps7_0_4 : computePairwiseSimilarity tv7a tv7e = 0 := by
  norm_num +decide [computePairwiseSimilarity, cosineSimilarity, tv7a, tv7e,
    DOMAIN_AFFINITY_BOOST, URL_PATH_BOOST]

theorem cps7_0_5 : computePairwiseSimilarity tv7a tv7f = 0 := by
  norm_num +decide [computePairwiseSimilarity, cosineSimilarity, tv7a, tv7f,
    DOMAIN_AFFINITY_BOOST, URL_PATH_BOOST]

theorem cps7_0_6 : computePairwiseSimilarity tv7a tv7g = 0 := by
  norm_num +decide [computePairwiseSimilarity, cosineSimilarity, tv7a, tv7g,
    DOMAIN_AFFINITY_BOOST, URL_PATH_BOOST]

theorem cps7_1_2 : computePairwiseSimilarity tv7b tv7c = 0 := by
  norm_num +decide [computePairwiseSimilarity, cosineSimilarity, tv7b, tv7c,
    DOMAIN_AFFINITY_BOOST, URL_PATH_BOOST]

theorem cps7_1_3 : computePairwiseSimilarity tv7b tv7d = 0 := by
  norm_num +decide [computePairwiseSimilarity, cosineSimilarity, tv7b, tv7d,
    DOMAIN_AFFINITY_BOOST, URL_PATH_BOOST]

theorem cps7_1_4 : computePairwiseSimilarity tv7b tv7e = 0 := by
  norm_num +decide [computePairwiseSimilarity, cosineSimilarity, tv7b, tv7e,
    DOMAIN_AFFINITY_BOOST, URL_PATH_BOOST]

theorem cps7_1_5 : computePairwiseSimilarity tv7b tv7f = 0 := by
  norm_num +decide [computePairwiseSimilarity, cosineSimilarity, tv7b, tv7f,
    DOMAIN_AFFINITY_BOOST, URL_PATH_BOOST]

theorem cps7_1_6 : computePairwiseSimilarity tv7b tv7g = 0 := by
  norm_num +decide [computePairwiseSimilarity, cosineSimilarity, tv7b, tv7g,
    DOMAIN_AFFINITY_BOOST, URL_PATH_BOOST]

theorem cps7_2_3 : computePairwiseSimilarity tv7c tv7d = 1 := by
  norm_num +decide [computePairwiseSimilarity, cosineSimilarity, tv7c, tv7d,
    DOMAIN_AFFINITY_BOOST, URL_PATH_BOOST]

theorem cps7_2_4 : computePairwiseSimilarity tv7c tv7e = 0 := by
  norm_num +decide [computePairwiseSimilarity, cosineSimilarity, tv7c, tv7e,
    DOMAIN_AFFINITY_BOOST, URL_PATH_BOOST]

theorem cps7_2_5 : computePairwiseSimilarity tv7c tv7f = 0 := by
  norm_num +decide [computePairwiseSimilarity, cosineSimilarity, tv7c, tv7f,
    DOMAIN_AFFINITY_BOOST, URL_PATH_BOOST]

theorem cps7_2_6 : computePairwiseSimilarity tv7c tv7g = 0 := by
  norm_num +decide [computePairwiseSimilarity, cosineSimilarity, tv7c, tv7g,
    DOMAIN_AFFINITY_BOOST, URL_PATH_BOOST]

theorem cps7_3_4 : computePairwiseSimilarity tv7d tv7e = 0 := by
  norm_num +decide [computePairwiseSimilarity, cosineSimilarity, tv7d, tv7e,
    DOMAIN_AFFINITY_BOOST, URL_PATH_BOOST]

theorem cps7_3_5 : computePairwiseSimilarity tv7d tv7f = 0 := by
  norm_num +decide [computePairwiseSimilarity, cosineSimilarity, tv7d, tv7f,
    DOMAIN_AFFINITY_BOOST, URL_PATH_BOOST]

theorem cps7_3_6 : computePairwiseSimilarity tv7d tv7g = 0 := by
  norm_num +decide [computePairwiseSimilarity, cosineSimilarity, tv7d, tv7g,
    DOMAIN_AFFINITY_BOOST, URL_PATH_BOOST]

theorem cps7_4_5 : computePairwiseSimilarity tv7e tv7f = 0 := by
  norm_num +decide [computePairwiseSimilarity, cosineSimilarity, tv7e, tv7f,
    DOMAIN_AFFINITY_BOOST, URL_PATH_BOOST]

theorem cps7_4_6 : computePairwiseSimilarity tv7e tv7g = 0 := by
  norm_num +decide [computePairwiseSimilarity, cosineSimilarity, tv7e, tv7g,
    DOMAIN_AFFINITY_BOOST, URL_PATH_BOOST]

theorem cps7_5_6 : computePairwiseSimilarity tv7f tv7g = 0 := by
  norm_num +decide [computePairwiseSimilarity, cosineSimilarity, tv7f, tv7g,
    DOMAIN_AFFINITY_BOOST, URL_PATH_BOOST]

theorem m7_0_1 : buildSimilarityMatrix tvs7 0 1 = 1 := by
  simp only [buildSimilarityMatrix]
  rw [if_pos (by norm_num : (0 : ℕ) < 1),
    show tvs7.getD 0 default = tv7a from rfl,
    show tvs7.getD 1 default = tv7b from rfl]
  exact cps7_0_1

theorem m7_0_2 : buildSimilarityMatrix tvs7 0 2 = 0 := by
  simp only [buildSimilarityMatrix]
  rw [if_pos (by norm_num : (0 : ℕ) < 2),
    show tvs7.getD 0 default = tv7a from rfl,
    show tvs7.getD 2 default = tv7c from rfl]
  exact cps7_0_2

theorem m7_0_3 : buildSimilarityMatrix tvs7 0 3 = 0 := by
  simp only [buildSimilarityMatrix]
  rw [if_pos (by norm_num : (0 : ℕ) < 3),
    show tvs7.getD 0 default = tv7a from rfl,
    show tvs7.getD 3 default = tv7d from rfl]
  exact cps7_0_3

theorem m7_0_4 : buildSimilarityMatrix tvs7 0 4 = 0 := by
  simp only [buildSimilarityMatrix]
  rw [if_pos (by norm_num : (0 : ℕ) < 4),
    show tvs7.getD 0 default = tv7a from rfl,
    show tvs7.getD 4 default = tv7e from rfl]
  exact cps7_0_4

theorem m7_0_5 : buildSimilarityMatrix tvs7 0 5 = 0 := by
  simp only [buildSimilarityMatrix]
  rw [if_pos (by norm_num : (0 : ℕ) < 5),
    show tvs7.getD 0 default = tv7a from rfl,
    show tvs7.getD 5 default = tv7f from rfl]
  exact cps7_0_5

theorem m7_0_6 : buildSimilarityMatrix tvs7 0 6 = 0 := by
  simp only [buildSimilarityMatrix]
  rw [if_pos (by norm_num : (0 : ℕ) < 6),
    show tvs7.getD 0 default = tv7a from rfl,
    show tvs7.getD 6 default = tv7g from rfl]
  exact cps7_0_6

theorem m7_1_0 : buildSimilarityMatrix tvs7 1 0 = 1 := by
  simp only [buildSimilarityMatrix]
  rw [if_neg (by norm_num : ¬ (1 : ℕ) < 0), if_pos (by norm_num : (0 : ℕ) < 1),
    show tvs7.getD 0 default = tv7a from rfl,
    show tvs7.getD 1 default = tv7b from rfl]
  exact cps7_0_1

theorem m7_1_2 : buildSimilarityMatrix tvs7 1 2 = 0 := by
  simp only [buildSimilarityMatrix]
  rw [if_pos (by norm_num : (1 : ℕ) < 2),
    show tvs7.getD 1 default = tv7b from rfl,
    show tvs7.getD 2 default = tv7c from rfl]
  exact cps7_1_2

theorem m7_1_3 : buildSimilarityMatrix tvs7 1 3 = 0 := by
  simp only [buildSimilarityMatrix]
  rw [if_pos (by norm_num : (1 : ℕ) < 3),
    show tvs7.getD 1 default = tv7b from rfl,
    show tvs7.getD 3 default = tv7d from rfl]
  exact cps7_1_3

theorem m7_1_4 : buildSimilarityMatrix tvs7 1 4 = 0 := by
  simp only [buildSimilarityMatrix]
  rw [if_pos (by norm_num : (1 : ℕ) < 4),
    show tvs7.getD 1 default = tv7b from rfl,
    show tvs7.getD 4 default = tv7e from rfl]
  exact cps7_1_4

theorem m7_1_5 : buildSimilarityMatrix tvs7 1 5 = 0 := by
  simp only [buildSimilarityMatrix]
  rw [if_pos (by norm_num : (1 : ℕ) < 5),
    show tvs7.getD 1 default = tv7b from rfl,
    show tvs7.getD 5 default = tv7f from rfl]
  exact cps7_1_5

theorem m7_1_6 : buildSimilarityMatrix tvs7 1 6 = 0 := by
  simp only [buildSimilarityMatrix]
  rw [if_pos (by norm_num : (1 : ℕ) < 6),
    show tvs7.getD 1 default = tv7b from rfl,
    show tvs7.getD 6 default = tv7g from rfl]
  exact cps7_1_6

theorem m7_2_0 : buildSimilarityMatrix tvs7 2 0 = 0 := by
  simp only [buildSimilarityMatrix]
  rw [if_neg (by norm_num : ¬ (2 : ℕ) < 0), if_pos (by norm_num : (0 : ℕ) < 2),
    show tvs7.getD 0 default = tv7a from rfl,
    show tvs7.getD 2 default = tv7c from rfl]
  exact cps7_0_2

theorem m7_2_1 : buildSimilarityMatrix tvs7 2 1 = 0 := by
  simp only [buildSimilarityMatrix]
  rw [if_neg (by norm_num : ¬ (2 : ℕ) < 1), if_pos (by norm_num : (1 : ℕ) < 2),
    show tvs7.getD 1 default = tv7b from rfl,
    show tvs7.getD 2 default = tv7c from rfl]
  exact cps7_1_2

theorem m7_2_3 : buildSimilarityMatrix tvs7 2 3 = 1 := by
  simp only [buildSimilarityMatrix]
  rw [if_pos (by norm_num : (2 : ℕ) < 3),
    show tvs7.getD 2 default = tv7c from rfl,
    show tvs7.getD 3 default = tv7d from rfl]
  exact cps7_2_3

theorem m7_2_4 : buildSimilarityMatrix tvs7 2 4 = 0 := by
  simp only [buildSimilarityMatrix]
  rw [if_pos (by norm_num : (2 : ℕ) < 4),
    show tvs7.getD 2 default = tv7c from rfl,
    show tvs7.getD 4 default = tv7e from rfl]
  exact cps7_2_4

theorem m7_2_5 : buildSimilarityMatrix tvs7 2 5 = 0 := by
  simp only [buildSimilarityMatrix]
  rw [if_pos (by norm_num : (2 : ℕ) < 5),
    show tvs7.getD 2 default = tv7c from rfl,
    show tvs7.getD 5 default = tv7f from rfl]
  exact cps7_2_5

theorem m7_2_6 : buildSimilarityMatrix tvs7 2 6 = 0 := by
  simp only [buildSimilarityMatrix]
  rw [if_pos (by norm_num : (2 : ℕ) < 6),
    show tvs7.getD 2 default = tv7c from rfl,
    show tvs7.getD 6 default = tv7g from rfl]
  exact cps7_2_6

theorem m7_3_0 : buildSimilarityMatrix tvs7 3 0 = 0 := by
  simp only [buildSimilarityMatrix]
  rw [if_neg (by norm_num : ¬ (3 : ℕ) < 0), if_pos (by norm_num : (0 : ℕ) < 3),
    show tvs7.getD 0 default = tv7a from rfl,
    show tvs7.getD 3 default = tv7d from rfl]
  exact cps7_0_3

theorem m7_3_1 : buildSimilarityMatrix tvs7 3 1 = 0 := by
  simp only [buildSimilarityMatrix]
  rw [if_neg (by norm_num : ¬ (3 : ℕ) < 1), if_pos (by norm_num : (1 : ℕ) < 3),
    show tvs7.getD 1 default = tv7b from rfl,
    show tvs7.getD 3 default = tv7d from rfl]
  exact cps7_1_3

theorem m7_3_2 : buildSimilarityMatrix tvs7 3 2 = 1 := by
  simp only [buildSimilarityMatrix]
  rw [if_neg (by norm_num : ¬ (3 : ℕ) < 2), if_pos (by norm_num : (2 : ℕ) < 3),
    show tvs7.getD 2 default = tv7c from rfl,
    show tvs7.getD 3 default = tv7d from rfl]
  exact cps7_2_3

theorem m7_3_4 : buildSimilarityMatrix tvs7 3 4 = 0 := by
  simp only [buildSimilarityMatrix]
  rw [if_pos (by norm_num : (3 : ℕ) < 4),
    show tvs7.getD 3 default = tv7d from rfl,
    show tvs7.getD 4 default = tv7e from rfl]
  exact cps7_3_4

theorem m7_3_5 : buildSimilarityMatrix tvs7 3 5 = 0 := by
  simp only [buildSimilarityMatrix]
  rw [if_pos (by norm_num : (3 : ℕ) < 5),
    show tvs7.getD 3 default = tv7d from rfl,
    show tvs7.getD 5 default = tv7f from rfl]
  exact cps7_3_5

theorem m7_3_6 : buildSimilarityMatrix tvs7 3 6 = 0 := by
  simp only [buildSimilarityMatrix]
  rw [if_pos (by norm_num : (3 : ℕ) < 6),
    show tvs7.getD 3 default = tv7d from rfl,
    show tvs7.getD 6 default = tv7g from rfl]
  exact cps7_3_6

theorem m7_4_0 : buildSimilarityMatrix tvs7 4 0 = 0 := by
  simp only [buildSimilarityMatrix]
  rw [if_neg (by norm_num : ¬ (4 : ℕ) < 0), if_pos (by norm_num : (0 : ℕ) < 4),
    show tvs7.getD 0 default = tv7a from rfl,
    show tvs7.getD 4 default = tv7e from rfl]
  exact cps7_0_4

theorem m7_4_1 : buildSimilarityMatrix tvs7 4 1 = 0 := by
  simp only [buildSimilarityMatrix]
  rw [if_neg (by norm_num : ¬ (4 : ℕ) < 1), if_pos (by norm_num : (1 : ℕ) < 4),
    show tvs7.getD 1 default = tv7b from rfl,
    show tvs7.getD 4 default = tv7e from rfl]
  exact cps7_1_4

theorem m7_4_2 : buildSimilarityMatrix tvs7 4 2 = 0 := by
  simp only [buildSimilarityMatrix]
  rw [if_neg (by norm_num : ¬ (4 : ℕ) < 2), if_pos (by norm_num : (2 : ℕ) < 4),
    show tvs7.getD 2 default = tv7c from rfl,
    show tvs7.getD 4 default = tv7e from rfl]
  exact cps7_2_4

theorem m7_4_3 : buildSimilarityMatrix tvs7 4 3 = 0 := by
  simp only [buildSimilarityMatrix]
  rw [if_neg (by norm_num : ¬ (4 : ℕ) < 3), if_pos (by norm_num : (3 : ℕ) < 4),
    show tvs7.getD 3 default = tv7d from rfl,
    show tvs7.getD 4 default = tv7e from rfl]
  exact cps7_3_4

theorem m7_4_5 : buildSimilarityMatrix tvs7 4 5 = 0 := by
  simp only [buildSimilarityMatrix]
  rw [if_pos (by norm_num : (4 : ℕ) < 5),
    show tvs7.getD 4 default = tv7e from rfl,
    show tvs7.getD 5 default = tv7f from rfl]
  exact cps7_4_5

theorem m7_4_6 : buildSimilarityMatrix tvs7 4 6 = 0 := by
  simp only [buildSimilarityMatrix]
  rw [if_pos (by norm_num : (4 : ℕ) < 6),
    show tvs7.getD 4 default = tv7e from rfl,
    show tvs7.getD 6 default = tv7g from rfl]
  exact cps7_4_6

theorem m7_5_0 : buildSimilarityMatrix tvs7 5 0 = 0 := by
  simp only [buildSimilarityMatrix]
  rw [if_neg (by norm_num : ¬ (5 : ℕ) < 0), if_pos (by norm_num : (0 : ℕ) < 5),
    show tvs7.getD 0 default = tv7a from rfl,
    show tvs7.getD 5 default = tv7f from rfl]
  exact cps7_0_5

theorem m7_5_1 : buildSimilarityMatrix tvs7 5 1 = 0 := by
  simp only [buildSimilarityMatrix]
  rw [if_neg (by norm_num : ¬ (5 : ℕ) < 1), if_pos (by norm_num : (1 : ℕ) < 5),
    show tvs7.getD 1 default = tv7b from rfl,
    show tvs7.getD 5 default = tv7f from rfl]
  exact cps7_1_5

theorem m7_5_2 : buildSimilarityMatrix tvs7 5 2 = 0 := by
  simp only [buildSimilarityMatrix]
  rw [if_neg (by norm_num : ¬ (5 : ℕ) < 2), if_pos (by norm_num : (2 : ℕ) < 5),
    show tvs7.getD 2 default = tv7c from rfl,
    show tvs7.getD 5 default = tv7f from rfl]
  exact cps7_2_5

theorem m7_5_3 : buildSimilarityMatrix tvs7 5 3 = 0 := by
  simp only [buildSimilarityMatrix]
  rw [if_neg (by norm_num : ¬ (5 : ℕ) < 3), if_pos (by norm_num : (3 : ℕ) < 5),
    show tvs7.getD 3 default = tv7d from rfl,
    show tvs7.getD 5 default = tv7f from rfl]
  exact cps7_3_5

theorem m7_5_4 : buildSimilarityMatrix tvs7 5 4 = 0 := by
  simp only [buildSimilarityMatrix]
  rw [if_neg (by norm_num : ¬ (5 : ℕ) < 4), if_pos (by norm_num : (4 : ℕ) < 5),
    show tvs7.getD 4 default = tv7e from rfl,
    show tvs7.getD 5 default = tv7f from rfl]
  exact cps7_4_5

theorem m7_5_6 : buildSimilarityMatrix tvs7 5 6 = 0 := by
  simp only [buildSimilarityMatrix]
  rw [if_pos (by norm_num : (5 : ℕ) < 6),
    show tvs7.getD 5 default = tv7f from rfl,
    show tvs7.getD 6 default = tv7g from rfl]
  exact cps7_5_6

theorem m7_6_0 : buildSimilarityMatrix tvs7 6 0 = 0 := by
  simp only [buildSimilarityMatrix]
  rw [if_neg (by norm_num : ¬ (6 : ℕ) < 0), if_pos (by norm_num : (0 : ℕ) < 6),
    show tvs7.getD 0 default = tv7a from rfl,
    show tvs7.getD 6 default = tv7g from rfl]
  exact cps7_0_6

theorem m7_6_1 : buildSimilarityMatrix tvs7 6 1 = 0 := by
  simp only [buildSimilarityMatrix]
  rw [if_neg (by norm_num : ¬ (6 : ℕ) < 1), if_pos (by norm_num : (1 : ℕ) < 6),
    show tvs7.getD 1 default = tv7b from rfl,
    show tvs7.getD 6 default = tv7g from rfl]
  exact cps7_1_6

theorem m7_6_2 : buildSimilarityMatrix tvs7 6 2 = 0 := by
  simp only [buildSimilarityMatrix]
  rw [if_neg (by norm_num : ¬ (6 : ℕ) < 2), if_pos (by norm_num : (2 : ℕ) < 6),
    show tvs7.getD 2 default = tv7c from rfl,
    show tvs7.getD 6 default = tv7g from rfl]
  exact cps7_2_6

theorem m7_6_3 : buildSimilarityMatrix tvs7 6 3 = 0 := by
  simp only [buildSimilarityMatrix]
  rw [if_neg (by norm_num : ¬ (6 : ℕ) < 3), if_pos (by norm_num : (3 : ℕ) < 6),
    show tvs7.getD 3 default = tv7d from rfl,
    show tvs7.getD 6 default = tv7g from rfl]
  exact cps7_3_6

theorem m7_6_4 : buildSimilarityMatrix tvs7 6 4 = 0 := by
  simp only [buildSimilarityMatrix]
  rw [if_neg (by norm_num : ¬ (6 : ℕ) < 4), if_pos (by norm_num : (4 : ℕ) < 6),
    show tvs7.getD 4 default = tv7e from rfl,
    show tvs7.getD 6 default = tv7g from rfl]
  exact cps7_4_6

theorem m7_6_5 : buildSimilarityMatrix tvs7 6 5 = 0 := by
  simp only [buildSimilarityMatrix]
  rw [if_neg (by norm_num : ¬ (6 : ℕ) < 5), if_pos (by norm_num : (5 : ℕ) < 6),
    show tvs7.getD 5 default = tv7f from rfl,
    show tvs7.getD 6 default = tv7g from rfl]
  exact cps7_5_6

theorem avgLinkage_single (m : ℕ → ℕ → ℝ) (c1 c2 : Cluster) (a b : ℕ)
    (h1 : c1.indices = [a]) (h2 : c2.indices = [b]) :
    avgLinkage m c1 c2 = m a b := by
  simp [avgLinkage, h1, h2]

theorem avgLinkage_one_two (m : ℕ → ℕ → ℝ) (c1 c2 : Cluster) (a b c : ℕ)
    (h1 : c1.indices = [a]) (h2 : c2.indices = [b, c]) :
    avgLinkage m c1 c2 = (m a b + m a c) / 2 := by
  simp [avgLinkage, h1, h2]

theorem avgLinkage_two_two (m : ℕ → ℕ → ℝ) (c1 c2 : Cluster) (a b c d : ℕ)
    (h1 : c1.indices = [a, b]) (h2 : c2.indices = [c, d]) :
    avgLinkage m c1 c2 = (m a c + m a d + m b c + m b d) / 4 := by
  simp [avgLinkage, h1, h2]
  ring_nf

theorem hv7_0_1 : avgLinkage (buildSimilarityMatrix tvs7) ic7a ic7b = 1 :=
  (avgLinkage_single _ ic7a ic7b 0 1 rfl rfl).trans m7_0_1

theorem hv7_0_2 : avgLinkage (buildSimilarityMatrix tvs7) ic7a ic7c = 0 :=
  (avgLinkage_single _ ic7a ic7c 0 2 rfl rfl).trans m7_0_2

theorem hv7_0_3 : avgLinkage (buildSimilarityMatrix tvs7) ic7a ic7d = 0 :=
  (avgLinkage_single _ ic7a ic7d 0 3 rfl rfl).trans m7_0_3

theorem hv7_0_4 : avgLinkage (buildSimilarityMatrix tvs7) ic7a ic7e = 0 :=
  (avgLinkage_single _ ic7a ic7e 0 4 rfl rfl).trans m7_0_4

theorem hv7_0_5 : avgLinkage (buildSimilarityMatrix tvs7) ic7a ic7f = 0 :=
  (avgLinkage_single _ ic7a ic7f 0 5 rfl rfl).trans m7_0_5

theorem hv7_0_6 : avgLinkage (buildSimilarityMatrix tvs7) ic7a ic7g = 0 :=
  (avgLinkage_single _ ic7a ic7g 0 6 rfl rfl).trans m7_0_6

theorem hv7_1_2 : avgLinkage (buildSimilarityMatrix tvs7) ic7b ic7c = 0 :=
  (avgLinkage_single _ ic7b ic7c 1 2 rfl rfl).trans m7_1_2

theorem hv7_1_3 : avgLinkage (buildSimilarityMatrix tvs7) ic7b ic7d = 0 :=
  (avgLinkage_single _ ic7b ic7d 1 3 rfl rfl).trans m7_1_3

theorem hv7_1_4 : avgLinkage (buildSimilarityMatrix tvs7) ic7b ic7e = 0 :=
  (avgLinkage_single _ ic7b ic7e 1 4 rfl rfl).trans m7_1_4

theorem hv7_1_5 : avgLinkage (buildSimilarityMatrix tvs7) ic7b ic7f = 0 :=
  (avgLinkage_single _ ic7b ic7f 1 5 rfl rfl).trans m7_1_5

theorem hv7_1_6 : avgLinkage (buildSimilarityMatrix tvs7) ic7b ic7g = 0 :=
  (avgLinkage_single _ ic7b ic7g 1 6 rfl rfl).trans m7_1_6

theorem hv7_2_3 : avgLinkage (buildSimilarityMatrix tvs7) ic7c ic7d = 1 :=
  (avgLinkage_single _ ic7c ic7d 2 3 rfl rfl).trans m7_2_3

theorem hv7_2_4 : avgLinkage (buildSimilarityMatrix tvs7) ic7c ic7e = 0 :=
  (avgLinkage_single _ ic7c ic7e 2 4 rfl rfl).trans m7_2_4

theorem hv7_2_5 : avgLinkage (buildSimilarityMatrix tvs7) ic7c ic7f = 0 :=
  (avgLinkage_single _ ic7c ic7f 2 5 rfl rfl).trans m7_2_5

theorem hv7_2_6 : avgLinkage (buildSimilarityMatrix tvs7) ic7c ic7g = 0 :=
  (avgLinkage_single _ ic7c ic7g 2 6 rfl rfl).trans m7_2_6

theorem hv7_3_4 : avgLinkage (buildSimilarityMatrix tvs7) ic7d ic7e = 0 :=
  (avgLinkage_single _ ic7d ic7e 3 4 rfl rfl).trans m7_3_4

theorem hv7_3_5 : avgLinkage (buildSimilarityMatrix tvs7) ic7d ic7f = 0 :=
  (avgLinkage_single _ ic7d ic7f 3 5 rfl rfl).trans m7_3_5

theorem hv7_3_6 : avgLinkage (buildSimilarityMatrix tvs7) ic7d ic7g = 0 :=
  (avgLinkage_single _ ic7d ic7g 3 6 rfl rfl).trans m7_3_6

theorem hv7_4_5 : avgLinkage (buildSimilarityMatrix tvs7) ic7e ic7f = 0 :=
  (avgLinkage_single _ ic7e ic7f 4 5 rfl rfl).trans m7_4_5

theorem hv7_4_6 : avgLinkage (buildSimilarityMatrix tvs7) ic7e ic7g = 0 :=
  (avgLinkage_single _ ic7e ic7g 4 6 rfl rfl).trans m7_4_6

theorem hv7_5_6 : avgLinkage (buildSimilarityMatrix tvs7) ic7f ic7g = 0 :=
  (avgLinkage_single _ ic7f ic7g 5 6 rfl rfl).trans m7_5_6

theorem hv7_c_mab : avgLinkage (buildSimilarityMatrix tvs7) ic7c mab7 = 0 := by
  rw [avgLinkage_one_two _ ic7c mab7 2 0 1 rfl rfl]
  norm_num [m7_2_0, m7_2_1]

theorem hv7_d_mab : avgLinkage (buildSimilarityMatrix tvs7) ic7d mab7 = 0 := by
  rw [avgLinkage_one_two _ ic7d mab7 3 0 1 rfl rfl]
  norm_num [m7_3_0, m7_3_1]

theorem hv7_e_mab : avgLinkage (buildSimilarityMatrix tvs7) ic7e mab7 = 0 := by
  rw [avgLinkage_one_two _ ic7e mab7 4 0 1 rfl rfl]
  norm_num [m7_4_0, m7_4_1]

theorem hv7_f_mab : avgLinkage (buildSimilarityMatrix tvs7) ic7f mab7 = 0 := by
  rw [avgLinkage_one_two _ ic7f mab7 5 0 1 rfl rfl]
  norm_num [m7_5_0, m7_5_1]

theorem hv7_g_mab : avgLinkage (buildSimilarityMatrix tvs7) ic7g mab7 = 0 := by
  rw [avgLinkage_one_two _ ic7g mab7 6 0 1 rfl rfl]
  norm_num [m7_6_0, m7_6_1]

theorem hv7_e_mcd : avgLinkage (buildSimilarityMatrix tvs7) ic7e mcd7 = 0 := by
  rw [avgLinkage_one_two _ ic7e mcd7 4 2 3 rfl rfl]
  norm_num [m7_4_2, m7_4_3]

theorem hv7_f_mcd : avgLinkage (buildSimilarityMatrix tvs7) ic7f mcd7 = 0 := by
  rw [avgLinkage_one_two _ ic7f mcd7 5 2 3 rfl rfl]
  norm_num [m7_5_2, m7_5_3]

theorem hv7_g_mcd : avgLinkage (buildSimilarityMatrix tvs7) ic7g mcd7 = 0 := by
  rw [avgLinkage_one_two _ ic7g mcd7 6 2 3 rfl rfl]
  norm_num [m7_6_2, m7_6_3]

theorem hv7_mab_mcd : avgLinkage (buildSimilarityMatrix tvs7) mab7 mcd7 = 0 := by
  rw [avgLinkage_two_two _ mab7 mcd7 0 1 2 3 rfl rfl]
  norm_num [m7_0_2, m7_0_3, m7_1_2, m7_1_3]

theorem pairs7u : pairsUpTo 7 = [(0, 1), (0, 2), (0, 3), (0, 4), (0, 5), (0, 6), (1, 2), (1, 3), (1, 4), (1, 5), (1, 6), (2, 3), (2, 4), (2, 5), (2, 6), (3, 4), (3, 5), (3, 6), (4, 5), (4, 6), (5, 6)] := by decide

theorem pairs6u : pairsUpTo 6 = [(0, 1), (0, 2), (0, 3), (0, 4), (0, 5), (1, 2), (1, 3), (1, 4), (1, 5), (2, 3), (2, 4), (2, 5), (3, 4), (3, 5), (4, 5)] := by decide

theorem pairs5u : pairsUpTo 5 = [(0, 1), (0, 2), (0, 3), (0, 4), (1, 2), (1, 3), (1, 4), (2, 3), (2, 4), (3, 4)] := by decide


theorem run7_init : initialClusters tvs7 = [ic7a, ic7b, ic7c, ic7d, ic7e, ic7f, ic7g] := by
  norm_num [initialClusters, tvs7, List.enum, List.enumFrom, ic7a, ic7b, ic7c,
    ic7d, ic7e, ic7f, ic7g, tv7a, tv7b, tv7c, tv7d, tv7e, tv7f, tv7g]

theorem run7_fbm1 : findBestMerge [ic7a, ic7b, ic7c, ic7d, ic7e, ic7f, ic7g] (buildSimilarityMatrix tvs7) = some (0, 1, 1) := by
  have g0 : ([ic7a, ic7b, ic7c, ic7d, ic7e, ic7f, ic7g] : List Cluster).getD 0 default = ic7a := rfl
  have g1 : ([ic7a, ic7b, ic7c, ic7d, ic7e, ic7f, ic7g] : List Cluster).getD 1 default = ic7b := rfl
  have g2 : ([ic7a, ic7b, ic7c, ic7d, ic7e, ic7f, ic7g] : List Cluster).getD 2 default = ic7c := rfl
  have g3 : ([ic7a, ic7b, ic7c, ic7d, ic7e, ic7f, ic7g] : List Cluster).getD 3 default = ic7d := rfl
  have g4 : ([ic7a, ic7b, ic7c, ic7d, ic7e, ic7f, ic7g] : List Cluster).getD 4 default = ic7e := rfl
  have g5 : ([ic7a, ic7b, ic7c, ic7d, ic7e, ic7f, ic7g] : List Cluster).getD 5 default = ic7f := rfl
  have g6 : ([ic7a, ic7b, ic7c, ic7d, ic7e, ic7f, ic7g] : List Cluster).getD 6 default = ic7g := rfl
  rw [findBestMerge, show ([ic7a, ic7b, ic7c, ic7d, ic7e, ic7f, ic7g] : List Cluster).length = 7 from rfl, pairs7u]
  simp only [fbmAux, g0, g1, g2, g3, g4, g5, g6,
    hv7_0_1, hv7_0_2, hv7_0_3, hv7_0_4, hv7_0_5, hv7_0_6, hv7_1_2, hv7_1_3, hv7_1_4, hv7_1_5, hv7_1_6, hv7_2_3, hv7_2_4, hv7_2_5, hv7_2_6, hv7_3_4, hv7_3_5, hv7_3_6, hv7_4_5, hv7_4_6, hv7_5_6]
  norm_num

theorem run7_fbm2 : findBestMerge [ic7c, ic7d, ic7e, ic7f, ic7g, mab7] (buildSimilarityMatrix tvs7) = some (0, 1, 1) := by
  have g0 : ([ic7c, ic7d, ic7e, ic7f, ic7g, mab7] : List Cluster).getD 0 default = ic7c := rfl
  have g1 : ([ic7c, ic7d, ic7e, ic7f, ic7g, mab7] : List Cluster).getD 1 default = ic7d := rfl
  have g2 : ([ic7c, ic7d, ic7e, ic7f, ic7g, mab7] : List Cluster).getD 2 default = ic7e := rfl
  have g3 : ([ic7c, ic7d, ic7e, ic7f, ic7g, mab7] : List Cluster).getD 3 default = ic7f := rfl
  have g4 : ([ic7c, ic7d, ic7e, ic7f, ic7g, mab7] : List Cluster).getD 4 default = ic7g := rfl
  have g5 : ([ic7c, ic7d, ic7e, ic7f, ic7g, mab7] : List Cluster).getD 5 default = mab7 := rfl
  rw [findBestMerge, show ([ic7c, ic7d, ic7e, ic7f, ic7g, mab7] : List Cluster).length = 6 from rfl, pairs6u]
  simp only [fbmAux, g0, g1, g2, g3, g4, g5,
    hv7_2_3, hv7_2_4, hv7_2_5, hv7_2_6, hv7_c_mab, hv7_3_4, hv7_3_5, hv7_3_6, hv7_d_mab, hv7_4_5, hv7_4_6, hv7_e_mab, hv7_5_6, hv7_f_mab, hv7_g_mab]
  norm_num

theorem run7_fbm3 : findBestMerge [ic7e, ic7f, ic7g, mab7, mcd7] (buildSimilarityMatrix tvs7) = some (0, 1, 0) := by
  have g0 : ([ic7e, ic7f, ic7g, mab7, mcd7] : List Cluster).getD 0 default = ic7e := rfl
  have g1 : ([ic7e, ic7f, ic7g, mab7, mcd7] : List Cluster).getD 1 default = ic7f := rfl
  have g2 : ([ic7e, ic7f, ic7g, mab7, mcd7] : List Cluster).getD 2 default = ic7g := rfl
  have g3 : ([ic7e, ic7f, ic7g, mab7, mcd7] : List Cluster).getD 3 default = mab7 := rfl
  have g4 : ([ic7e, ic7f, ic7g, mab7, mcd7] : List Cluster).getD 4 default = mcd7 := rfl
  rw [findBestMerge, show ([ic7e, ic7f, ic7g, mab7, mcd7] : List Cluster).length = 5 from rfl, pairs5u]
  simp only [fbmAux, g0, g1, g2, g3, g4,
    hv7_4_5, hv7_4_6, hv7_e_mab, hv7_e_mcd, hv7_5_6, hv7_f_mab, hv7_f_mcd, hv7_g_mab, hv7_g_mcd, hv7_mab_mcd]
  norm_num

theorem cent7ab : computeCentroid [[(1 : ℝ), 0, 0, 0, 0], [1, 0, 0, 0, 0]] =
    [1, 0, 0, 0, 0] := by
  simp only [computeCentroid]
  norm_num [sumVecs, hrep5, sqrt_four]

theorem cent7cd : computeCentroid [[(0 : ℝ), 1, 0, 0, 0], [0, 1, 0, 0, 0]] =
    [0, 1, 0, 0, 0] := by
  simp only [computeCentroid]
  norm_num [sumVecs, hrep5, sqrt_four]

theorem run7_merge1 : mergeStep [ic7a, ic7b, ic7c, ic7d, ic7e, ic7f, ic7g] 0 1 = [ic7c, ic7d, ic7e, ic7f, ic7g, mab7] := by
  have hrt : removeTwo [ic7a, ic7b, ic7c, ic7d, ic7e, ic7f, ic7g] 0 1 = [ic7c, ic7d, ic7e, ic7f, ic7g] := by
    simp [removeTwo, removeTwoAux]
  have hdom : dedupFirst [['a'], ['b']] = [['a'], ['b']] := by decide
  rw [mergeStep, hrt, show ([ic7a, ic7b, ic7c, ic7d, ic7e, ic7f, ic7g] : List Cluster).getD 0 default = ic7a from rfl,
    show ([ic7a, ic7b, ic7c, ic7d, ic7e, ic7f, ic7g] : List Cluster).getD 1 default = ic7b from rfl, mergeClusters]
  simp only [ic7a, ic7b]
  rw [show ([[(1 : ℝ), 0, 0, 0, 0]] ++ [[1, 0, 0, 0, 0]] : List Vec) =
    [[(1 : ℝ), 0, 0, 0, 0], [1, 0, 0, 0, 0]] from rfl, cent7ab]
  norm_num [mab7, hdom]

theorem run7_merge2 : mergeStep [ic7c, ic7d, ic7e, ic7f, ic7g, mab7] 0 1 = [ic7e, ic7f, ic7g, mab7, mcd7] := by
  have hrt : removeTwo [ic7c, ic7d, ic7e, ic7f, ic7g, mab7] 0 1 = [ic7e, ic7f, ic7g, mab7] := by
    simp [removeTwo, removeTwoAux]
  have hdom : dedupFirst [['c'], ['d']] = [['c'], ['d']] := by decide
  rw [mergeStep, hrt, show ([ic7c, ic7d, ic7e, ic7f, ic7g, mab7] : List Cluster).getD 0 default = ic7c from rfl,
    show ([ic7c, ic7d, ic7e, ic7f, ic7g, mab7] : List Cluster).getD 1 default = ic7d from rfl, mergeClusters]
  simp only [ic7c, ic7d]
  rw [show ([[(0 : ℝ), 1, 0, 0, 0]] ++ [[0, 1, 0, 0, 0]] : List Vec) =
    [[(0 : ℝ), 1, 0, 0, 0], [0, 1, 0, 0, 0]] from rfl, cent7cd]
  norm_num [mcd7, hdom]

theorem run7_thr1 : ¬ ((1 : ℝ) < computeAdaptiveThreshold 7 2) := by
  norm_num [computeAdaptiveThreshold, CONTENT_SIMILARITY_THRESHOLD, max_def]

theorem run7_thr0 : (0 : ℝ) < computeAdaptiveThreshold 7 2 := by
  norm_num [computeAdaptiveThreshold, CONTENT_SIMILARITY_THRESHOLD, max_def]

theorem run7_agglom :
    agglomerativeClustering tvs7 (buildSimilarityMatrix tvs7) 2 = [ic7e, ic7f, ic7g, mab7, mcd7] := by
  show agglomLoop (buildSimilarityMatrix tvs7)
    (computeAdaptiveThreshold tvs7.length 2) 2 tvs7.length (initialClusters tvs7) =
    [ic7e, ic7f, ic7g, mab7, mcd7]
  rw [show tvs7.length = 7 from rfl, run7_init]
  have h1 := agglomLoop_step (buildSimilarityMatrix tvs7)
    (computeAdaptiveThreshold 7 2) 2 6 [ic7a, ic7b, ic7c, ic7d, ic7e, ic7f, ic7g] 0 1 1
    (by norm_num) run7_fbm1 run7_thr1
  rw [run7_merge1] at h1
  have h2 := agglomLoop_step (buildSimilarityMatrix tvs7)
    (computeAdaptiveThreshold 7 2) 2 5 [ic7c, ic7d, ic7e, ic7f, ic7g, mab7] 0 1 1
    (by norm_num) run7_fbm2 run7_thr1
  rw [run7_merge2] at h2
  have h3 := agglomLoop_stop_thr (buildSimilarityMatrix tvs7)
    (computeAdaptiveThreshold 7 2) 2 4 [ic7e, ic7f, ic7g, mab7, mcd7] 0 1 0
    (by norm_num) run7_fbm3 run7_thr0
  rw [h1, h2, h3]


theorem hclone7e : cloneCluster ic7e = ic7e := rfl
theorem hclone7f : cloneCluster ic7f = ic7f := rfl
theorem hclone7g : cloneCluster ic7g = ic7g := rfl

theorem ps7_fe : pass1Score ic7f ic7e = 0 := by
  norm_num +decide [pass1Score, cosineSimilarity, ic7e, ic7f, tv7e, tv7f,
    DOMAIN_AFFINITY_BOOST]

theorem ps7_ge : pass1Score ic7g ic7e = 0 := by
  norm_num +decide [pass1Score, cosineSimilarity, ic7e, ic7g, tv7e, tv7g,
    DOMAIN_AFFINITY_BOOST]

theorem ps7_gf : pass1Score ic7g ic7f = 0 := by
  norm_num +decide [pass1Score, cosineSimilarity, ic7f, ic7g, tv7f, tv7g,
    DOMAIN_AFFINITY_BOOST]

theorem hsg7 : clusterSingletonsTogether [ic7e, ic7f, ic7g] = [ic7e, ic7f, ic7g] := by
  rw [clusterSingletonsTogether, if_neg (by norm_num)]
  have hb1 : bestScanAux (pass1Score ic7e) 0 [] (none, -1) = (none, -1) := rfl
  have hb2 : bestScanAux (pass1Score ic7f) 0 [ic7e] (none, -1) = (some 0, 0) := by
    simp only [bestScanAux, ps7_fe]
    norm_num
  have hb3 : bestScanAux (pass1Score ic7g) 0 [ic7e, ic7f] (none, -1) = (some 0, 0) := by
    simp only [bestScanAux, ps7_ge, ps7_gf]
    norm_num
  rw [pass1Aux, hb1]
  dsimp only
  rw [show ([] ++ [cloneCluster ic7e] : List Cluster) = [ic7e] from rfl]
  rw [pass1Aux, hb2]
  dsimp only
  rw [if_neg (by norm_num [SINGLETON_CLUSTER_THRESHOLD])]
  rw [show ([ic7e] ++ [cloneCluster ic7f] : List Cluster) = [ic7e, ic7f] from rfl]
  rw [pass1Aux, hb3]
  dsimp only
  rw [if_neg (by norm_num [SINGLETON_CLUSTER_THRESHOLD])]
  rw [show ([ic7e, ic7f] ++ [cloneCluster ic7g] : List Cluster) = [ic7e, ic7f, ic7g] from rfl]
  rfl

theorem cos7_e_mab : cosineSimilarity ic7e.centroid mab7.centroid = 0 := by
  norm_num [cosineSimilarity, ic7e, mab7]

theorem cos7_e_mcd : cosineSimilarity ic7e.centroid mcd7.centroid = 0 := by
  norm_num [cosineSimilarity, ic7e, mcd7]

theorem cos7_f_mab : cosineSimilarity ic7f.centroid mab7.centroid = 0 := by
  norm_num [cosineSimilarity, ic7f, mab7]

theorem cos7_f_mcd : cosineSimilarity ic7f.centroid mcd7.centroid = 0 := by
  norm_num [cosineSimilarity, ic7f, mcd7]

theorem cos7_g_mab : cosineSimilarity ic7g.centroid mab7.centroid = 0 := by
  norm_num [cosineSimilarity, ic7g, mab7]

theorem cos7_g_mcd : cosineSimilarity ic7g.centroid mcd7.centroid = 0 := by
  norm_num [cosineSimilarity, ic7g, mcd7]

theorem hfc7e : findClosestCluster ic7e [mab7, mcd7] = (some 0, 0) := by
  rw [findClosestCluster]
  simp only [bestScanAux, cos7_e_mab, cos7_e_mcd]
  norm_num

theorem hfc7f : findClosestCluster ic7f [mab7, mcd7] = (some 0, 0) := by
  rw [findClosestCluster]
  simp only [bestScanAux, cos7_f_mab, cos7_f_mcd]
  norm_num

theorem hfc7g : findClosestCluster ic7g [mab7, mcd7] = (some 0, 0) := by
  rw [findClosestCluster]
  simp only [bestScanAux, cos7_g_mab, cos7_g_mcd]
  norm_num

theorem hp2g : pass2Aux [mab7, mcd7] [ic7g] = ([mab7, mcd7], [ic7g]) := by
  rw [pass2Aux, hfc7g]
  dsimp only
  rw [if_neg (by norm_num [SINGLETON_ABSORPTION_THRESHOLD])]
  simp only [pass2Aux]

theorem hp2f : pass2Aux [mab7, mcd7] [ic7f, ic7g] = ([mab7, mcd7], [ic7f, ic7g]) := by
  rw [pass2Aux, hfc7f]
  dsimp only
  rw [if_neg (by norm_num [SINGLETON_ABSORPTION_THRESHOLD])]
  simp only [hp2g]

theorem run7_p2 : pass2Aux [mab7, mcd7] [ic7e, ic7f, ic7g] =
    ([mab7, mcd7], [ic7e, ic7f, ic7g]) := by
  rw [pass2Aux, hfc7e]
  dsimp only
  rw [if_neg (by norm_num [SINGLETON_ABSORPTION_THRESHOLD])]
  simp only [hp2f]

theorem hsing7 : ([ic7e, ic7f, ic7g, mab7, mcd7] : List Cluster).filter
    (fun c => c.items.length = 1) = [ic7e, ic7f, ic7g] := by
  simp [List.filter_cons, ic7e, ic7f, ic7g, mab7, mcd7]

theorem hmulti7 : ([ic7e, ic7f, ic7g, mab7, mcd7] : List Cluster).filter
    (fun c => 1 < c.items.length) = [mab7, mcd7] := by
  simp [List.filter_cons, ic7e, ic7f, ic7g, mab7, mcd7]

theorem run7_passes : consolidatePasses [ic7e, ic7f, ic7g, mab7, mcd7] =
    ([mab7, mcd7], [ic7e, ic7f, ic7g]) := by
  simp only [consolidatePasses, hsing7, hmulti7, hsg7]
  have hnm : ([ic7e, ic7f, ic7g] : List Cluster).filter
      (fun c => 1 < c.items.length) = [] := by
    simp [List.filter_cons, ic7e, ic7f, ic7g]
  have hor : ([ic7e, ic7f, ic7g] : List Cluster).filter
      (fun c => c.items.length = 1) = [ic7e, ic7f, ic7g] := by
    simp [List.filter_cons, ic7e, ic7f, ic7g]
  rw [hnm, hor, List.append_nil]
  exact run7_p2

theorem run7_consolidate : consolidateSingletons [ic7e, ic7f, ic7g, mab7, mcd7] 2 =
    [mab7, mcd7, createMiscCluster [ic7e, ic7f, ic7g]] := by
  simp only [consolidateSingletons, run7_passes, hsing7]
  norm_num [MIN_ORPHANS_FOR_MISC]

theorem run7_pipeline : pipelineClusters tvs7 200 = [ic7e, ic7f, ic7g, mab7, mcd7] := by
  rw [pipelineClusters, show pipelineCapacity tvs7 200 = 2 from rfl]
  exact run7_agglom

theorem run7_orphans : pipelineOrphans tvs7 200 = [ic7e, ic7f, ic7g] := by
  rw [pipelineOrphans, run7_pipeline, run7_passes]

theorem run7_multi : pipelineMulti tvs7 200 = [mab7, mcd7] := by
  rw [pipelineMulti, run7_pipeline, run7_passes]

theorem misc7_items : (createMiscCluster [ic7e, ic7f, ic7g]).items =
    [tv7e, tv7f, tv7g] := rfl

theorem misc7_isMisc : (createMiscCluster [ic7e, ic7f, ic7g]).isMisc = true := rfl

theorem run7_eval : clusterTabs tvs7 200 nfG =
    [⟨['G'], "blue".toList, [20, 21]⟩, ⟨['G'], "green".toList, [22, 23]⟩,
     ⟨"MISC".toList, "yellow".toList, [24, 25, 26]⟩] := by
  rw [clusterTabs_eq tvs7 200 nfG (by norm_num [tvs7]),
    show pipelineCapacity tvs7 200 = 2 from rfl, run7_pipeline, run7_consolidate]
  norm_num +decide [generateClusterMetadata, metadataAux, misc7_items, misc7_isMisc,
    mab7, mcd7, nfG, clusterColors, tv7a, tv7b, tv7c, tv7d, tv7e, tv7f, tv7g]

/-- Refutation of the unconditional capacity bound: on this 7-item input at
screen width 200 the capacity is 2 and the orphan count reaches
`MIN_ORPHANS_FOR_MISC`, yet the final output has 3 entries (two multi
clusters plus the catch-all). -/
theorem capacity_claim_counterexample :
    MIN_ORPHANS_FOR_MISC ≤ (pipelineOrphans tvs7 200).length ∧
    ¬ ((clusterTabs tvs7 200 nfG).length ≤ calculateGroupCapacity 200 tvs7.length) := by
  constructor
  · rw [run7_orphans]
    norm_num [MIN_ORPHANS_FOR_MISC]
  · rw [run7_eval, show calculateGroupCapacity 200 tvs7.length = 2 from rfl]
    norm_num

/-- Witness instantiating the amended capacity bound on the 7-item run. -/
theorem consolidate_capacity_amended_witness :
    MIN_ORPHANS_FOR_MISC ≤ (pipelineOrphans tvs7 200).length ∧
    ((clusterTabs tvs7 200 nfG).length ≤
        max (pipelineCapacity tvs7 200) ((pipelineMulti tvs7 200).length + 1) ∧
      ((pipelineMulti tvs7 200).length < pipelineCapacity tvs7 200 →
        (clusterTabs tvs7 200 nfG).length ≤ pipelineCapacity tvs7 200)) :=
  ⟨by rw [run7_orphans]; norm_num [MIN_ORPHANS_FOR_MISC],
   consolidate_capacity_amended tvs7 200 nfG
     (by rw [run7_orphans]; norm_num [MIN_ORPHANS_FOR_MISC])⟩

/-- Witness instantiating the identifier-disjointness theorem on the 3-item
run: its identifiers are pairwise distinct and id 10 lands in at most one
output entry. -/
theorem clusterTabs_tabIds_disjoint_witness :
    (tvs3.map (fun tv => tv.tabId)).Nodup ∧
    (clusterTabs tvs3 1920 nfG).countP (fun r => r.tabIds.contains 10) ≤ 1 :=
  ⟨by decide, clusterTabs_tabIds_disjoint tvs3 1920 nfG (by decide) 10⟩

/-- Witness instantiating the round-robin color theorem on the 3-item run at
output position 0. -/
theorem clusterTabs_color_round_robin_witness :
    0 < (clusterTabs tvs3 1920 nfG).length ∧
    ((clusterTabs tvs3 1920 nfG).getD 0 default).color =
      clusterColors.getD (0 % clusterColors.length) [] :=
  ⟨by rw [run3_eval]; norm_num,
   clusterTabs_color_round_robin tvs3 1920 nfG 0 (by rw [run3_eval]; norm_num)⟩

end

end Grooopy
